import Mathlib

/-!
Verification development for the MATLAB parser core of MISS_HIT
(`src/m_parser.py` together with the AST node model of `src/m_ast.py`).

The parser is embedded shallowly: each method of `MATLAB_Parser` becomes a
Lean function producing a value of a small deep-embedded command type `Prog`,
whose interpreter `interp` threads the parser state (`PState`) and either
returns a value together with the final state or a fatal error.  Recursive
grammar productions take an explicit fuel argument; running out of fuel is a
distinguished error (`Fatal.fuel`) and never counts as evidence about the
program.

External collaborators that are not part of `src/` are modelled from the
specification and are marked as such in their doc comments:
 * the token type produced by the lexer (`m_lexer.py`),
 * the message handler semantics (`errors.py`),
 * the few AST constructors of the refactored `m_ast.py` that the parser in
   `src/m_parser.py` targets but that the older `src/m_ast.py` predates
   (for example the token-carrying `Range_Expression` constructor and the
   `Entity_Constraints` container).
-/

set_option autoImplicit false

/-- Token kinds used by the parser (the `TOKEN_KINDS` universe of the lexer;
the lexer itself is an external collaborator, so this closed enumeration is
modelled from the spec: kind, literal value and source location per token). -/
inductive TKind : Type where
  | NUMBER | CARRAY | STRING | IDENTIFIER | KEYWORD | OPERATOR
  | BRA | KET | A_BRA | A_KET | C_BRA | C_KET | M_BRA | M_KET
  | COLON | AT | METACLASS | SELECTION | ASSIGNMENT
  | SEMICOLON | COMMA | NEWLINE | BANG | COMMENT | CONTINUATION
  deriving DecidableEq, Repr

/-- Python name of a token kind, used inside diagnostic texts. -/
def kindStr : TKind → String
  | .NUMBER => "NUMBER" | .CARRAY => "CARRAY" | .STRING => "STRING"
  | .IDENTIFIER => "IDENTIFIER" | .KEYWORD => "KEYWORD" | .OPERATOR => "OPERATOR"
  | .BRA => "BRA" | .KET => "KET" | .A_BRA => "A_BRA" | .A_KET => "A_KET"
  | .C_BRA => "C_BRA" | .C_KET => "C_KET" | .M_BRA => "M_BRA" | .M_KET => "M_KET"
  | .COLON => "COLON" | .AT => "AT" | .METACLASS => "METACLASS"
  | .SELECTION => "SELECTION" | .ASSIGNMENT => "ASSIGNMENT"
  | .SEMICOLON => "SEMICOLON" | .COMMA => "COMMA" | .NEWLINE => "NEWLINE"
  | .BANG => "BANG" | .COMMENT => "COMMENT" | .CONTINUATION => "CONTINUATION"

/-- Modelled from the spec: a token of the external Token Source carries a
kind, a literal value and a source location; the two mutable extension slots
(fix annotation bag, owning-AST-node back-link) are side metadata written by
the parser and read only by downstream tools, so they are not part of this
embedding.  The location is abstracted to a single natural number. -/
structure Token where
  kind  : TKind
  value : String
  loc   : Nat
  deriving DecidableEq, Repr

/-- The single-quote character, written without an apostrophe literal. -/
def squote : String := String.singleton (Char.ofNat 39)

/-- The `.` + single-quote transpose operator value. -/
def dotquote : String := "." ++ squote

/-- Quote a string between single quotes (used in diagnostic texts). -/
def quoted (s : String) : String := squote ++ s ++ squote

/-- Context kinds of the context stack (`push_context` asserts exactly this
closed set: function, classdef, loop, if, switch, block). -/
inductive Ctx : Type where
  | funC | clsC | loopC | ifC | switchC | blockC
  deriving DecidableEq, Repr

/-- Python name of a context kind (used in the nested-function diagnostic). -/
def ctxStr : Ctx → String
  | .funC => "function" | .clsC => "classdef" | .loopC => "loop"
  | .ifC => "if" | .switchC => "switch" | .blockC => "block"

/-- Kind of a non-fatal diagnostic recorded by the message handler. -/
inductive DiagKind : Type where
  | softErr   -- mh.error(..., fatal=False)
  | warn      -- mh.warning(...)
  | style     -- mh.style_issue(...)
  deriving DecidableEq, Repr

/-- A recorded non-fatal diagnostic. -/
structure Diag where
  loc  : Option Nat
  msg  : String
  kind : DiagKind
  deriving DecidableEq, Repr

/-- A fatal outcome of the parse: a fatal parser error (`mh.error`), an
internal-consistency error (`ICE`), or fuel exhaustion of the embedding. -/
inductive Fatal : Type where
  | err (loc : Option Nat) (msg : String)
  | ice (msg : String)
  | fuel
  deriving DecidableEq, Repr

/-- The mutable state of one `MATLAB_Parser` instance: the remaining lexer
stream, the three lookahead slots `ct`/`nt`/`nnt`, the context stack (head =
top of stack; the Python list appends at the end and scans in reverse, which
is the same thing), the file-scoped `functions_require_end` flag, and the
diagnostics recorded so far.  `filename`/`in_class_directory` model the two
lexer attributes the parser reads. -/
structure PState where
  filename : String
  in_class_directory : Bool
  toks : List Token
  ct  : Option Token
  nt  : Option Token
  nnt : Option Token
  context : List Ctx
  functions_require_end : Bool
  messages : List Diag
  deriving DecidableEq, Repr

/-- Configuration: `config.active(cfg, rule)` is `rule not in
cfg["suppress_rule"]` (src/config.py). -/
structure Cfg where
  suppress_rule : List String
  deriving DecidableEq, Repr

/-- `config.active` from src/config.py (the `assert rule in STYLE_RULES` is a
precondition, not behaviour). -/
def Cfg.active (cfg : Cfg) (rule : String) : Bool :=
  !(cfg.suppress_rule.contains rule)

/-- Deep embedding of the parser's effects: reading the state, advancing the
token stream, pushing/popping the context stack, setting the
`functions_require_end` flag (the source only ever assigns `True` to it),
recording a non-fatal diagnostic, consulting the active-rule configuration,
and raising a fatal outcome.  Keeping the effect language this small lets
whole-parser invariants (flag monotonicity, message monotonicity) be proved
by one induction over `Prog`. -/
inductive Prog (α : Type) : Type where
  | ret (a : α)
  | getSt (k : PState → Prog α)
  | nextT (k : Prog α)
  | pushCtx (c : Ctx) (k : Prog α)
  | popCtx (k : Prog α)
  | setReqEnd (k : Prog α)
  | emit (d : Diag) (k : Prog α)
  | isActive (rule : String) (k : Bool → Prog α)
  | fatal (f : Fatal)

/-- Sequencing of embedded programs. -/
def Prog.bind {α β : Type} : Prog α → (α → Prog β) → Prog β
  | .ret a, f => f a
  | .getSt k, f => .getSt fun s => (k s).bind f
  | .nextT k, f => .nextT (k.bind f)
  | .pushCtx c k, f => .pushCtx c (k.bind f)
  | .popCtx k, f => .popCtx (k.bind f)
  | .setReqEnd k, f => .setReqEnd (k.bind f)
  | .emit d k, f => .emit d (k.bind f)
  | .isActive r k, f => .isActive r fun b => (k b).bind f
  | .fatal e, _ => .fatal e

instance : Monad Prog where
  pure := Prog.ret
  bind := Prog.bind

def Prog.get : Prog PState := .getSt .ret
def Prog.throw {α : Type} (e : Fatal) : Prog α := .fatal e
def Prog.next : Prog Unit := .nextT (.ret ())
def Prog.push (c : Ctx) : Prog Unit := .pushCtx c (.ret ())
def Prog.pop : Prog Unit := .popCtx (.ret ())
def Prog.setRE : Prog Unit := .setReqEnd (.ret ())
def Prog.tell (d : Diag) : Prog Unit := .emit d (.ret ())
def Prog.activeRule (r : String) : Prog Bool := .isActive r .ret

/-- `lexer.token()`: pop the next raw token, `none` at end of file. -/
def popTok : List Token → Option Token × List Token
  | [] => (none, [])
  | t :: r => (some t, r)

/-- The skipping loop inside `MATLAB_Parser.next` (lines 134-146): starting
from a freshly fetched `nnt`, repeatedly drop comment/continuation tokens and
join a newline onto a directly preceding newline (`nt`). -/
def adjustNNT (ntk : Option Token) : Option Token → List Token → Option Token × List Token
  | none, toks => (none, toks)
  | some t, toks =>
    if t.kind == .COMMENT || t.kind == .CONTINUATION ||
       (t.kind == .NEWLINE && (match ntk with | some n => n.kind == .NEWLINE | none => false)) then
      match toks with
      | [] => (none, [])
      | t2 :: rest => adjustNNT ntk (some t2) rest
    else (some t, toks)

/-- `MATLAB_Parser.next`: shift the lookahead window by one token. -/
def nextState (st : PState) : PState :=
  let p := popTok st.toks
  let q := adjustNNT st.nnt p.1 p.2
  { st with ct := st.nt, nt := st.nnt, nnt := q.1, toks := q.2 }

/-- State-level `peek` (non-consuming check of `nt`). -/
def peekSt (st : PState) (kind : TKind) (v : Option String) : Bool :=
  match st.nt with
  | some t => t.kind == kind && (match v with | none => true | some x => t.value == x)
  | none => false

/-- State-level `peek2` (non-consuming check of `nnt`). -/
def peek2St (st : PState) (kind : TKind) (v : Option String) : Bool :=
  match st.nnt with
  | some t => t.kind == kind && (match v with | none => true | some x => t.value == x)
  | none => false

/-- State-level `peek_eof`. -/
def peekEofSt (st : PState) : Bool := st.nt = none

def peek (k : TKind) : Prog Bool := do
  pure (peekSt (← Prog.get) k none)

def peekV (k : TKind) (v : String) : Prog Bool := do
  pure (peekSt (← Prog.get) k (some v))

def peek2 (k : TKind) : Prog Bool := do
  pure (peek2St (← Prog.get) k none)

def peek_eof : Prog Bool := do
  pure (peekEofSt (← Prog.get))

/-- `peek("OPERATOR") and self.nt.value in vals` — the combined test used by
the precedence-climbing loops and the unary-chain test. -/
def peekOpIn (vals : List String) : Prog Bool := do
  let st ← Prog.get
  pure (match st.nt with
        | some t => t.kind == .OPERATOR && vals.contains t.value
        | none => false)

/-- `MATLAB_Parser.peek_eos`. -/
def peek_eos : Prog Bool := do
  pure ((← peek .SEMICOLON) || (← peek .COMMA) || (← peek .NEWLINE))

/-- Modelled from the spec: `Message_Handler.error` (errors.py is not under
`src/`); a fatal error aborts the current compilation unit's parse. -/
def mh_error (loc : Option Nat) (msg : String) : Prog Unit :=
  Prog.throw (.err loc msg)

/-- Modelled from the spec: `Message_Handler.error(..., fatal=False)` records
the diagnostic and parsing continues. -/
def mh_error_nonfatal (loc : Option Nat) (msg : String) : Prog Unit :=
  Prog.tell ⟨loc, msg, .softErr⟩

/-- Modelled from the spec: `Message_Handler.warning` is non-fatal. -/
def mh_warning (loc : Option Nat) (msg : String) : Prog Unit :=
  Prog.tell ⟨loc, msg, .warn⟩

/-- Modelled from the spec: `Message_Handler.style_issue` is non-fatal (the
autofix boolean only drives external tooling). -/
def mh_style_issue (loc : Option Nat) (msg : String) : Prog Unit :=
  Prog.tell ⟨loc, msg, .style⟩

/-- `self.ct` dereference; the source accesses the attribute directly, which
on `None` would crash the tool (an internal, not user-facing, failure). -/
def curTok : Prog Token := do
  let st ← Prog.get
  match st.ct with
  | some t => pure t
  | none => Prog.throw (.ice "ct is None")

/-- `MATLAB_Parser.match`: advance, then check the kind (and value). -/
def matchKV (kind : TKind) (v : Option String) : Prog Unit := do
  Prog.next
  let st ← Prog.get
  match st.ct with
  | none => Prog.throw (.err none ("expected " ++ kindStr kind ++ ", reached EOF instead"))
  | some t =>
    if t.kind ≠ kind then
      match v with
      | some x => Prog.throw (.err (some t.loc)
          ("expected " ++ kindStr kind ++ "(" ++ x ++ "), found " ++ kindStr t.kind ++ " instead"))
      | none => Prog.throw (.err (some t.loc)
          ("expected " ++ kindStr kind ++ ", found " ++ kindStr t.kind ++ " instead"))
    else
      match v with
      | some x =>
        if t.value ≠ x then
          Prog.throw (.err (some t.loc)
            ("expected " ++ kindStr kind ++ "(" ++ x ++ "), found "
              ++ kindStr t.kind ++ "(" ++ t.value ++ ") instead"))
        else pure ()
      | none => pure ()

def matchT (kind : TKind) : Prog Unit := matchKV kind none

def matchTV (kind : TKind) (v : String) : Prog Unit := matchKV kind (some v)

/-- `MATLAB_Parser.match_eof`. -/
def match_eofP : Prog Unit := do
  Prog.next
  let st ← Prog.get
  match st.ct with
  | some t => Prog.throw (.err (some t.loc)
      ("expected end of file, found " ++ kindStr t.kind ++ " instead"))
  | none => pure ()

/-- `MATLAB_Parser.in_context` (lines 118-127): scan the stack from the top;
`True` on the first frame equal to `kind`, `False` as soon as a `function` or
`classdef` frame different from `kind` is reached or the stack is exhausted. -/
def in_context (kind : Ctx) : List Ctx → Bool
  | [] => false
  | k :: rest =>
    if kind = k then true
    else if k = .funC ∨ k = .clsC then false
    else in_context kind rest

def in_contextP (kind : Ctx) : Prog Bool := do
  pure (in_context kind (← Prog.get).context)

/-- Run an embedded program on a state under a configuration. -/
def interp {α : Type} (cfg : Cfg) : Prog α → PState → Except Fatal (α × PState)
  | .ret a, st => .ok (a, st)
  | .getSt k, st => interp cfg (k st) st
  | .nextT k, st => interp cfg k (nextState st)
  | .pushCtx c k, st => interp cfg k { st with context := c :: st.context }
  | .popCtx k, st =>
    match st.context with
    | [] => .error (.ice "context is empty")
    | _ :: rest => interp cfg k { st with context := rest }
  | .setReqEnd k, st => interp cfg k { st with functions_require_end := true }
  | .emit d k, st => interp cfg k { st with messages := st.messages ++ [d] }
  | .isActive r k, st => interp cfg (k (cfg.active r)) st
  | .fatal e, _ => .error e

/-- `MATLAB_Parser.__init__`: empty context, `functions_require_end = False`,
and two initial `next()` calls to fill the lookahead window. -/
def initParser (filename : String) (in_class_dir : Bool) (toks : List Token) : PState :=
  nextState (nextState ⟨filename, in_class_dir, toks, none, none, none, [], false, []⟩)

/-- Variant tag of `Function_Call` (m_ast.py lines 499-525). -/
inductive CallVariant : Type where
  | normal | command | escape
  deriving DecidableEq, Repr

mutual
/-- Expression nodes, one constructor per `Expression` subclass the parser
constructs (m_ast.py).  `range_expr` follows the refactored constructor the
parser calls (Modelled from the spec: first point, first colon token, last
point, and an optional second colon token with the stride point; the stride
is optional and no default is inserted).  The `Name` subclasses are
`identifier`, `selection`, `dynamic_selection`, `superclass_ref`,
`reference` and `cell_reference`. -/
inductive MExpr : Type where
  | number (t : Token)
  | char_array (t : Token)
  | string_lit (t : Token)
  | reshape (t : Token)
  | identifier (t : Token)
  | selection (t_sel : Token) (n_pfx : MExpr) (n_field : MExpr)
  | dynamic_selection (t_sel : Token) (n_pfx : MExpr) (n_field : MExpr)
  | superclass_ref (t_at : Token) (n_pfx : MExpr) (n_reference : MExpr)
  | reference (n_ident : MExpr) (arglist : List MExpr)
  | cell_reference (n_ident : MExpr) (arglist : List MExpr)
  | range_expr (n_first : MExpr) (t_first_colon : Token) (n_last : MExpr)
               (stride : Option (Token × MExpr))
  | matrix (t_open : Token) (rows : List (List MExpr)) (t_close : Token)
  | cell (t_open : Token) (rows : List (List MExpr)) (t_close : Token)
  | unary_op (prec : Nat) (t_op : Token) (n_expr : MExpr)
  | binary_op (prec : Nat) (t_op : Token) (n_lhs : MExpr) (n_rhs : MExpr)
  | lambda (t_at : Token) (params : List MExpr) (body : MExpr)
  | function_ptr (t_at : Token) (n_name : MExpr)
  | metaclass (t_mc : Token) (n_name : MExpr)
  | function_call (n_name : MExpr) (l_args : List MExpr) (variant : CallVariant)
end

/-- `Entity_Constraints`: one constrained name of a validation block.
Modelled from the spec (the class lives in the refactored `m_ast.py`): an
optional dimension constraint (tokens; empty list = no constraint recorded),
an optional class-name constraint, functional validator references, and an
optional default value. -/
inductive MConstraint : Type where
  | mk (n_name : MExpr) (dims : List Token) (classc : Option MExpr)
       (funcs : List MExpr) (defaultv : Option MExpr)

def MConstraint.dims : MConstraint → List Token
  | .mk _ d _ _ _ => d

def MConstraint.n_name : MConstraint → MExpr
  | .mk n _ _ _ _ => n

def MConstraint.classc : MConstraint → Option MExpr
  | .mk _ _ c _ _ => c

/-- `Name_Value_Pair` of an attribute list. -/
inductive MPair : Type where
  | mk (n_name : MExpr) (value : Option (Token × MExpr))

/-- `Function_Signature`: name, inputs, outputs. -/
inductive MSig : Type where
  | mk (n_name : MExpr) (l_inputs : List MExpr) (l_outputs : List MExpr)

mutual
/-- Statement nodes, one constructor per `Statement` subclass constructed by
the parser (`If_Statement`/`Switch_Statement` actions are kept as `MAction`
values as in the refactored node model).  `func_def` records that
`parse_statement` can also hand back a `Function_Definition`. -/
inductive MStmt : Type where
  | simple_assignment (t_eq : Token) (n_lhs : MExpr) (n_rhs : MExpr)
  | compound_assignment (l_lhs : List MExpr) (t_eq : Token) (n_rhs : MExpr)
  | naked (n_expr : MExpr)
  | if_stmt (actions : List MAction)
  | switch_stmt (t_kw : Token) (n_expr : MExpr) (actions : List MAction)
  | for_stmt (t_for : Token) (n_ident : MExpr) (n_expr : MExpr) (body : List MStmt)
  | parfor_stmt (t_for : Token) (n_ident : MExpr) (n_range : MExpr)
               (workers : Option MExpr) (body : List MStmt)
  | while_stmt (t_kw : Token) (n_guard : MExpr) (body : List MStmt)
  | return_stmt (t : Token)
  | break_stmt (t : Token)
  | continue_stmt (t : Token)
  | global_stmt (t : Token) (names : List MExpr)
  | persistent_stmt (t : Token) (names : List MExpr)
  | import_stmt (t : Token) (chain : List Token)
  | try_stmt (t_try : Token) (body : List MStmt) (n_ident : Option MExpr)
             (handler : Option (Token × List MStmt))
  | spmd_stmt (t : Token) (body : List MStmt)
  | func_def (fd : MFuncDef)

/-- One guarded action of an `if`/`switch` statement. -/
inductive MAction : Type where
  | mk (t_kw : Token) (cond : Option MExpr) (body : List MStmt)

/-- `Function_Definition`. -/
inductive MFuncDef : Type where
  | mk (t_fun : Token) (n_sig : MSig) (l_validation : List MBlock)
       (l_body : List MStmt) (l_nested : List MFuncDef)

/-- `Special_Block` (properties/methods/events/enumeration/arguments). -/
inductive MBlock : Type where
  | mk (t_kw : Token) (l_attr : List MPair) (items : List MItem)

/-- Items of a `Special_Block`. -/
inductive MItem : Type where
  | constraint (c : MConstraint)
  | method_def (fd : MFuncDef)
  | method_sig (s : MSig)
  | enum (n_name : MExpr) (args : List MExpr)
  | event (n_name : MExpr)
end

def MFuncDef.l_nested : MFuncDef → List MFuncDef
  | .mk _ _ _ _ n => n

def MBlock.items : MBlock → List MItem
  | .mk _ _ i => i

/-- `Class_Definition` with its four block collections. -/
structure MClassDef where
  t_classdef : Token
  l_attr : List MPair
  n_name : MExpr
  l_super : List MExpr
  l_properties : List MBlock
  l_methods : List MBlock
  l_events : List MBlock
  l_enumerations : List MBlock

/-- The three compilation-unit variants. -/
inductive CompUnit : Type where
  | script_file (name : String) (stmts : List MStmt) (funcs : List MFuncDef)
  | function_file (name : String) (funcs : List MFuncDef) (in_class_dir : Bool)
  | class_file (name : String) (cd : MClassDef) (funcs : List MFuncDef)

/-- Python class name of an expression node (`rv.__class__.__name__`, used
verbatim in two diagnostics of `parse_statement`). -/
def className : MExpr → String
  | .number _ => "Number_Literal"
  | .char_array _ => "Char_Array_Literal"
  | .string_lit _ => "String_Literal"
  | .reshape _ => "Reshape"
  | .identifier _ => "Identifier"
  | .selection _ _ _ => "Selection"
  | .dynamic_selection _ _ _ => "Dynamic_Selection"
  | .superclass_ref _ _ _ => "Superclass_Reference"
  | .reference _ _ => "Reference"
  | .cell_reference _ _ => "Cell_Reference"
  | .range_expr _ _ _ _ => "Range_Expression"
  | .matrix _ _ _ => "Matrix_Expression"
  | .cell _ _ _ => "Cell_Expression"
  | .unary_op _ _ _ => "Unary_Operation"
  | .binary_op _ _ _ _ => "Binary_Operation"
  | .lambda _ _ _ => "Lambda_Function"
  | .function_ptr _ _ => "Function_Pointer"
  | .metaclass _ _ => "Metaclass"
  | .function_call _ _ _ => "Function_Call"

/-- `isinstance(e, Name)` (m_ast.py: the `Name` subclasses). -/
def isName : MExpr → Bool
  | .identifier _ => true
  | .selection _ _ _ => true
  | .dynamic_selection _ _ _ => true
  | .superclass_ref _ _ _ => true
  | .reference _ _ => true
  | .cell_reference _ _ => true
  | _ => false

/-- `isinstance(e, (Identifier, Selection))` — the command-form callee check. -/
def isIdentOrSelection : MExpr → Bool
  | .identifier _ => true
  | .selection _ _ _ => true
  | _ => false

/-- `Identifier.__str__` (m_ast.py lines 366-370): a BANG identifier renders
as "system", otherwise the token value. -/
def identStr : MExpr → String
  | .identifier t => if t.kind = .BANG then "system" else t.value
  | e => className e

/-- Is the expression a `Char_Array_Literal`?  (`Function_Call`'s invariant
for command/escape variants.) -/
def isCharArrayLit : MExpr → Bool
  | .char_array _ => true
  | _ => false

/-- `parse_identifier` (lines 322-335): a void `~` when allowed, the keyword
`end`, or a plain identifier. -/
def parse_identifier (allow_void : Bool) : Prog MExpr := do
  if (← peekV .OPERATOR "~") && allow_void then
    matchT .OPERATOR
    pure (.identifier (← curTok))
  else if ← peekV .KEYWORD "end" then
    matchTV .KEYWORD "end"
    pure (.identifier (← curTok))
  else
    matchT .IDENTIFIER
    pure (.identifier (← curTok))

/-- The selection loop of `parse_simple_name` (lines 415-423). -/
def parse_simple_name_loop (allow_void : Bool) : Nat → MExpr → Prog MExpr
  | 0, _ => Prog.throw .fuel
  | n+1, rv => do
    if (← peek .SELECTION) && !(← peek2 .BRA) then
      if ← peek .SELECTION then
        matchT .SELECTION
        let tok ← curTok
        let field ← parse_identifier allow_void
        parse_simple_name_loop allow_void n (.selection tok rv field)
      else
        Prog.throw (.ice "impossible path")
    else pure rv

/-- `parse_simple_name` (lines 407-424). -/
def parse_simple_name (fuel : Nat) (allow_void : Bool) : Prog MExpr := do
  let rv ← parse_identifier allow_void
  parse_simple_name_loop allow_void fuel rv

/-- The greedy unary-prefix run consumed right after a power operator
(`parse_precedence_2`, lines 1134-1138): collect `-`/`+`/`~` operator tokens
in reading order. -/
def parse_punary_chain : Nat → Prog (List Token)
  | 0 => Prog.throw .fuel
  | n+1 => do
    if ← peekOpIn ["-", "+", "~"] then
      matchT .OPERATOR
      let t ← curTok
      let rest ← parse_punary_chain n
      pure (t :: rest)
    else pure []

/-- Lines 1140-1141: `while unary_chain: rhs = Unary_Operation(3,
unary_chain.pop(), rhs)` — popping from the end applies the rightmost
(innermost) unary token first, i.e. a right fold over the chain. -/
def applyUnaryChain (chain : List Token) (rhs : MExpr) : MExpr :=
  chain.foldr (fun t e => .unary_op 3 t e) rhs

/-- The command-form argument run of `parse_statement` (lines 988-991):
consume the run of CARRAY tokens as `Char_Array_Literal` arguments. -/
def parse_command_args : Nat → List MExpr → Prog (List MExpr)
  | 0, _ => Prog.throw .fuel
  | n+1, acc => do
    if ← peek .CARRAY then
      matchT .CARRAY
      parse_command_args n (acc ++ [.char_array (← curTok)])
    else pure acc

/-- A `while self.peek("SEMICOLON"): self.match("SEMICOLON")` loop (used by
`parse_matrix` and `parse_cell`). -/
def skip_semicolons : Nat → Prog Unit
  | 0 => Prog.throw .fuel
  | n+1 => do
    if ← peek .SEMICOLON then
      matchT .SEMICOLON
      skip_semicolons n
    else pure ()

/-- First loop of `match_eos` (lines 230-261): skip semicolons and commas,
tracking whether a semicolon was seen and how many terminators there were;
the token-fix annotations of the source are downstream metadata and are not
modelled.  Returns (found_semi_before_nl, found_eos, terminator_count). -/
def match_eos_loop1 (semi : String) : Nat → Bool → Bool → Nat → Prog (Bool × Bool × Nat)
  | 0, _, _, _ => Prog.throw .fuel
  | n+1, found_semi, found_eos, tcount => do
    if (← peek .SEMICOLON) || (← peek .COMMA) then
      let tcount := tcount + 1
      let found_semi ← do
        if ← peek .SEMICOLON then
          pure true
        else do
          if (← peek .COMMA) && (← Prog.activeRule "end_of_statements") then
            let st ← Prog.get
            mh_style_issue (st.nt.map (·.loc))
              "end statement with a semicolon instead of comma"
          pure found_semi
      if (← Prog.activeRule "end_of_statements") && tcount > 1 then
        let st ← Prog.get
        mh_style_issue (st.nt.map (·.loc)) "use only one statement terminator"
      Prog.next
      match_eos_loop1 semi n found_semi true tcount
    else pure (found_semi, found_eos, tcount)

/-- Second loop of `match_eos` (lines 275-291): skip any further semicolons,
commas or newlines.  Returns (found_nl, found_eos). -/
def match_eos_loop2 : Nat → Bool → Bool → Prog (Bool × Bool)
  | 0, _, _ => Prog.throw .fuel
  | n+1, found_nl, _found_eos => do
    if ← peek_eos then
      if ← peek .NEWLINE then do
        Prog.next
        match_eos_loop2 n true true
      else do
        if ← Prog.activeRule "end_of_statements" then
          let st ← Prog.get
          mh_style_issue (st.nt.map (·.loc))
            "trailing statement terminator after newline"
        Prog.next
        match_eos_loop2 n found_nl true
    else pure (found_nl, _found_eos)

/-- `MATLAB_Parser.match_eos` (lines 207-320); `semi` is `""` or `";"` as in
the source, `allow_nothing` likewise.  The `n_ast` argument of the source is
only used for token back-links and fix annotations and is therefore absent
here. -/
def match_eos (fuel : Nat) (semi : String) (allow_nothing : Bool) : Prog Unit := do
  let st0 ← Prog.get
  let ending_token := st0.ct
  let r1 ← match_eos_loop1 semi fuel false false 0
  let found_semi_before_nl := r1.1
  let found_eos1 := r1.2.1
  if ← Prog.activeRule "end_of_statements" then
    if semi ≠ "" && !found_semi_before_nl && !found_eos1 then
      mh_style_issue (ending_token.map (·.loc)) "end statement with a semicolon"
    else if semi = "" && found_semi_before_nl then
      mh_style_issue (ending_token.map (·.loc)) "end this with just a newline"
  let r2 ← match_eos_loop2 fuel false found_eos1
  let found_nl := r2.1
  let found_eos2 := r2.2
  if (← Prog.activeRule "end_of_statements") && !found_nl then do
    let st ← Prog.get
    mh_style_issue (if found_eos2 then st.ct.map (·.loc) else ending_token.map (·.loc))
      "end statement with a newline"
  let found_eos3 := found_eos2 || (← peek_eof)
  if !found_eos3 && !allow_nothing then do
    let st ← Prog.get
    match st.nt with
    | some t => Prog.throw (.err (some t.loc)
        ("expected end of statement, found " ++ kindStr t.kind ++ " instead"))
    | none => Prog.throw (.ice "nt is None")
  else pure ()

mutual

/-- `parse_name` (lines 337-405). -/
def parse_name : Nat → Bool → Prog MExpr
  | 0, _ => Prog.throw .fuel
  | n+1, allow_void => do
    let rv ← parse_simple_name n allow_void
    if ← peek .AT then do
      matchT .AT
      let t_at ← curTok
      let at_pfx := rv
      let at_suffix ← parse_simple_name n false
      let at_suffix ←
        if ← peek .BRA then do
          let args ← parse_argument_list n
          pure (MExpr.reference at_suffix args)
        else pure at_suffix
      pure (.superclass_ref t_at at_pfx at_suffix)
    else
      parse_name_loop n rv

/-- The suffix loop of `parse_name` (lines 378-405): selections, dynamic
selections, references and cell references. -/
def parse_name_loop : Nat → MExpr → Prog MExpr
  | 0, _ => Prog.throw .fuel
  | n+1, rv => do
    if (← peek .SELECTION) || (← peek .BRA) || (← peek .C_BRA) then
      if ← peek .SELECTION then do
        matchT .SELECTION
        let tok ← curTok
        if ← peek .BRA then do
          matchT .BRA
          let dyn ← parse_expression n
          matchT .KET
          parse_name_loop n (.dynamic_selection tok rv dyn)
        else do
          let field ← parse_identifier false
          parse_name_loop n (.selection tok rv field)
      else if ← peek .BRA then do
        let args ← parse_argument_list n
        parse_name_loop n (.reference rv args)
      else if ← peek .C_BRA then do
        let r ← parse_cell_reference n rv
        parse_name_loop n r
      else
        Prog.throw (.ice "impossible path")
    else pure rv

/-- `parse_argument_list` (lines 1415-1438). -/
def parse_argument_list : Nat → Prog (List MExpr)
  | 0 => Prog.throw .fuel
  | n+1 => do
    matchT .BRA
    if ← peek .KET then do
      matchT .KET
      pure []
    else do
      let args ← parse_argument_list_loop n []
      matchT .KET
      pure args

/-- The `while True` collection loop of `parse_argument_list`. -/
def parse_argument_list_loop : Nat → List MExpr → Prog (List MExpr)
  | 0, _ => Prog.throw .fuel
  | n+1, acc => do
    let e ← parse_expression n
    let acc := acc ++ [e]
    if ← peek .COMMA then do
      matchT .COMMA
      parse_argument_list_loop n acc
    else if ← peek .KET then
      pure acc
    else
      parse_argument_list_loop n acc

/-- `parse_cell_reference` (lines 1440-1460). -/
def parse_cell_reference : Nat → MExpr → Prog MExpr
  | 0, _ => Prog.throw .fuel
  | n+1, n_name => do
    matchT .C_BRA
    let args ← parse_cell_reference_loop n []
    matchT .C_KET
    pure (.cell_reference n_name args)

/-- The `while True` collection loop of `parse_cell_reference`. -/
def parse_cell_reference_loop : Nat → List MExpr → Prog (List MExpr)
  | 0, _ => Prog.throw .fuel
  | n+1, acc => do
    let e ← parse_expression n
    let acc := acc ++ [e]
    if ← peek .COMMA then do
      matchT .COMMA
      parse_cell_reference_loop n acc
    else if ← peek .C_KET then
      pure acc
    else
      parse_cell_reference_loop n acc

/-- `parse_expression` = precedence level 12. -/
def parse_expression : Nat → Prog MExpr
  | 0 => Prog.throw .fuel
  | n+1 => parse_precedence_12 n

/-- `parse_precedence_1` (lines 1066-1108): primaries. -/
def parse_precedence_1 : Nat → Prog MExpr
  | 0 => Prog.throw .fuel
  | n+1 => do
    if ← peek .NUMBER then do
      matchT .NUMBER
      pure (.number (← curTok))
    else if ← peek .CARRAY then do
      matchT .CARRAY
      pure (.char_array (← curTok))
    else if ← peek .STRING then do
      matchT .STRING
      pure (.string_lit (← curTok))
    else if ← peek .BRA then do
      matchT .BRA
      let e ← parse_expression n
      matchT .KET
      pure e
    else if ← peek .M_BRA then
      parse_matrix n
    else if ← peek .C_BRA then
      parse_cell n
    else if ← peek .COLON then do
      matchT .COLON
      pure (.reshape (← curTok))
    else if ← peek .AT then
      parse_function_handle n
    else if ← peek .METACLASS then do
      matchT .METACLASS
      let tok ← curTok
      let nm ← parse_simple_name n false
      pure (.metaclass tok nm)
    else
      parse_name n false

/-- `parse_precedence_2` (lines 1122-1146): postfix transpose and power,
with the same-level unary-chain exception after `^`/`.^`. -/
def parse_precedence_2 : Nat → Prog MExpr
  | 0 => Prog.throw .fuel
  | n+1 => do
    let rv ← parse_precedence_1 n
    parse_precedence_2_loop n rv

/-- The operator loop of `parse_precedence_2`. -/
def parse_precedence_2_loop : Nat → MExpr → Prog MExpr
  | 0, _ => Prog.throw .fuel
  | n+1, rv => do
    if ← peekOpIn ["^", ".^", squote, dotquote] then do
      matchT .OPERATOR
      let t_op ← curTok
      if t_op.value == "^" || t_op.value == ".^" then do
        let unary_chain ← parse_punary_chain n
        let rhs ← parse_precedence_1 n
        parse_precedence_2_loop n (.binary_op 2 t_op rv (applyUnaryChain unary_chain rhs))
      else
        parse_precedence_2_loop n (.unary_op 2 t_op rv)
    else pure rv

/-- `parse_precedence_3` simply defers to level 2 (the unary-after-power
exception is handled there). -/
def parse_precedence_3 : Nat → Prog MExpr
  | 0 => Prog.throw .fuel
  | n+1 => parse_precedence_2 n

/-- `parse_precedence_4` (lines 1153-1160): ordinary right-recursive unary
`+`, `-`, `~`. -/
def parse_precedence_4 : Nat → Prog MExpr
  | 0 => Prog.throw .fuel
  | n+1 => do
    if ← peekOpIn ["+", "-", "~"] then do
      matchT .OPERATOR
      let t_op ← curTok
      let rhs ← parse_precedence_4 n
      pure (.unary_op 4 t_op rhs)
    else
      parse_precedence_3 n

/-- `parse_precedence_5` (lines 1165-1176): multiplicative family. -/
def parse_precedence_5 : Nat → Prog MExpr
  | 0 => Prog.throw .fuel
  | n+1 => do
    let rv ← parse_precedence_4 n
    parse_precedence_5_loop n rv

def parse_precedence_5_loop : Nat → MExpr → Prog MExpr
  | 0, _ => Prog.throw .fuel
  | n+1, rv => do
    if ← peekOpIn ["*", ".*", "/", "./", "\\", ".\\"] then do
      matchT .OPERATOR
      let t_op ← curTok
      let rhs ← parse_precedence_4 n
      parse_precedence_5_loop n (.binary_op 5 t_op rv rhs)
    else pure rv

/-- `parse_precedence_6` (lines 1179-1188): additive family. -/
def parse_precedence_6 : Nat → Prog MExpr
  | 0 => Prog.throw .fuel
  | n+1 => do
    let rv ← parse_precedence_5 n
    parse_precedence_6_loop n rv

def parse_precedence_6_loop : Nat → MExpr → Prog MExpr
  | 0, _ => Prog.throw .fuel
  | n+1, rv => do
    if ← peekOpIn ["+", "-"] then do
      matchT .OPERATOR
      let t_op ← curTok
      let rhs ← parse_precedence_5 n
      parse_precedence_6_loop n (.binary_op 6 t_op rv rhs)
    else pure rv

/-- `parse_range_expression` (lines 1191-1212), precedence level 7: one to
three colon-separated points.  In the source the two `if peek(COLON)` tests
are sequential, which is equivalent to this nesting because a failed first
test leaves the state unchanged.  With two points the stride is absent; with
three points the middle point is the stride (`Range_Expression(points[0],
t_first_colon, points[2], t_second_colon, points[1])`). -/
def parse_range_expression : Nat → Prog MExpr
  | 0 => Prog.throw .fuel
  | n+1 => do
    let p1 ← parse_precedence_6 n
    if ← peek .COLON then do
      matchT .COLON
      let c1 ← curTok
      let p2 ← parse_precedence_6 n
      if ← peek .COLON then do
        matchT .COLON
        let c2 ← curTok
        let p3 ← parse_precedence_6 n
        pure (.range_expr p1 c1 p3 (some (c2, p2)))
      else
        pure (.range_expr p1 c1 p2 none)
    else pure p1

/-- `parse_precedence_8` (lines 1216-1234): relational operators with the
chain-length counter (initially 1, incremented per consumed operator; the
warning fires on every operator that brings the counter above 2). -/
def parse_precedence_8 : Nat → Prog MExpr
  | 0 => Prog.throw .fuel
  | n+1 => do
    let rv ← parse_range_expression n
    parse_precedence_8_loop n 1 rv

def parse_precedence_8_loop : Nat → Nat → MExpr → Prog MExpr
  | 0, _, _ => Prog.throw .fuel
  | n+1, chain_length, rv => do
    if ← peekOpIn ["<", "<=", ">", ">=", "==", "~="] then do
      let chain_length := chain_length + 1
      matchT .OPERATOR
      let t_op ← curTok
      let rhs ← parse_range_expression n
      let rv := MExpr.binary_op 8 t_op rv rhs
      if chain_length > 2 then
        mh_warning (some t_op.loc)
          "chained relation does not work the way you think it does"
      parse_precedence_8_loop n chain_length rv
    else pure rv

/-- `parse_precedence_9`: element-wise AND. -/
def parse_precedence_9 : Nat → Prog MExpr
  | 0 => Prog.throw .fuel
  | n+1 => do
    let rv ← parse_precedence_8 n
    parse_precedence_9_loop n rv

def parse_precedence_9_loop : Nat → MExpr → Prog MExpr
  | 0, _ => Prog.throw .fuel
  | n+1, rv => do
    if ← peekV .OPERATOR "&" then do
      matchTV .OPERATOR "&"
      let t_op ← curTok
      let rhs ← parse_precedence_8 n
      parse_precedence_9_loop n (.binary_op 9 t_op rv rhs)
    else pure rv

/-- `parse_precedence_10`: element-wise OR. -/
def parse_precedence_10 : Nat → Prog MExpr
  | 0 => Prog.throw .fuel
  | n+1 => do
    let rv ← parse_precedence_9 n
    parse_precedence_10_loop n rv

def parse_precedence_10_loop : Nat → MExpr → Prog MExpr
  | 0, _ => Prog.throw .fuel
  | n+1, rv => do
    if ← peekV .OPERATOR "|" then do
      matchTV .OPERATOR "|"
      let t_op ← curTok
      let rhs ← parse_precedence_9 n
      parse_precedence_10_loop n (.binary_op 10 t_op rv rhs)
    else pure rv

/-- `parse_precedence_11`: short-circuit AND. -/
def parse_precedence_11 : Nat → Prog MExpr
  | 0 => Prog.throw .fuel
  | n+1 => do
    let rv ← parse_precedence_10 n
    parse_precedence_11_loop n rv

def parse_precedence_11_loop : Nat → MExpr → Prog MExpr
  | 0, _ => Prog.throw .fuel
  | n+1, rv => do
    if ← peekV .OPERATOR "&&" then do
      matchTV .OPERATOR "&&"
      let t_op ← curTok
      let rhs ← parse_precedence_10 n
      parse_precedence_11_loop n (.binary_op 11 t_op rv rhs)
    else pure rv

/-- `parse_precedence_12`: short-circuit OR. -/
def parse_precedence_12 : Nat → Prog MExpr
  | 0 => Prog.throw .fuel
  | n+1 => do
    let rv ← parse_precedence_11 n
    parse_precedence_12_loop n rv

def parse_precedence_12_loop : Nat → MExpr → Prog MExpr
  | 0, _ => Prog.throw .fuel
  | n+1, rv => do
    if ← peekV .OPERATOR "||" then do
      matchTV .OPERATOR "||"
      let t_op ← curTok
      let rhs ← parse_precedence_11 n
      parse_precedence_12_loop n (.binary_op 12 t_op rv rhs)
    else pure rv

/-- `parse_matrix_row` (lines 1284-1321); `first` tracks the leading-comma
special case of the first iteration. -/
def parse_matrix_row : Nat → Bool → List MExpr → Prog (List MExpr)
  | 0, _, _ => Prog.throw .fuel
  | n+1, first, acc => do
    if !(← peek .SEMICOLON) && !(← peek .NEWLINE) && !(← peek .C_KET) && !(← peek .M_KET) then do
      if first then do
        if ← peek .COMMA then
          matchT .COMMA
        else pure ()
      else pure ()
      if (← peek .SEMICOLON) || (← peek .NEWLINE) || (← peek .C_KET) || (← peek .M_KET) then
        pure acc
      else do
        let e ← parse_expression n
        let acc := acc ++ [e]
        if ← peek .SEMICOLON then
          parse_matrix_row n false acc
        else if ← peek .NEWLINE then
          parse_matrix_row n false acc
        else if (← peek .C_KET) || (← peek .M_KET) then
          parse_matrix_row n false acc
        else do
          matchT .COMMA
          parse_matrix_row n false acc
    else pure acc

/-- The further-rows loop of `parse_matrix` (lines 1341-1349). -/
def parse_matrix_rows_loop : Nat → List (List MExpr) → Prog (List (List MExpr))
  | 0, _ => Prog.throw .fuel
  | n+1, rows => do
    if !(← peek .SEMICOLON) && !(← peek .NEWLINE) && !(← peek .M_KET) then do
      let row ← parse_matrix_row n true []
      skip_semicolons n
      if ← peek .NEWLINE then
        matchT .NEWLINE
      else pure ()
      parse_matrix_rows_loop n (rows ++ [row])
    else pure rows

/-- `parse_matrix` (lines 1323-1353). -/
def parse_matrix : Nat → Prog MExpr
  | 0 => Prog.throw .fuel
  | n+1 => do
    matchT .M_BRA
    let t_open ← curTok
    skip_semicolons n
    let rows ←
      if !(← peek .M_KET) then do
        let row ← parse_matrix_row n true []
        skip_semicolons n
        if ← peek .NEWLINE then
          matchT .NEWLINE
        else pure ()
        parse_matrix_rows_loop n [row]
      else pure []
    matchT .M_KET
    let t_close ← curTok
    pure (.matrix t_open rows t_close)

/-- The further-rows loop of `parse_cell` (lines 1373-1381). -/
def parse_cell_rows_loop : Nat → List (List MExpr) → Prog (List (List MExpr))
  | 0, _ => Prog.throw .fuel
  | n+1, rows => do
    if !(← peek .SEMICOLON) && !(← peek .NEWLINE) && !(← peek .C_KET) then do
      let row ← parse_matrix_row n true []
      skip_semicolons n
      if ← peek .NEWLINE then
        matchT .NEWLINE
      else pure ()
      parse_cell_rows_loop n (rows ++ [row])
    else pure rows

/-- `parse_cell` (lines 1355-1385). -/
def parse_cell : Nat → Prog MExpr
  | 0 => Prog.throw .fuel
  | n+1 => do
    matchT .C_BRA
    let t_open ← curTok
    skip_semicolons n
    let rows ←
      if !(← peek .C_KET) then do
        let row ← parse_matrix_row n true []
        skip_semicolons n
        if ← peek .NEWLINE then
          matchT .NEWLINE
        else pure ()
        parse_cell_rows_loop n [row]
      else pure []
    matchT .C_KET
    let t_close ← curTok
    pure (.cell t_open rows t_close)

/-- The parameter loop of a lambda (`parse_function_handle`, lines 1397-1403). -/
def parse_lambda_params_loop : Nat → List MExpr → Prog (List MExpr)
  | 0, _ => Prog.throw .fuel
  | n+1, acc => do
    if !(← peek .KET) then do
      let p ← parse_identifier true
      let acc := acc ++ [p]
      if ← peek .COMMA then do
        matchT .COMMA
        parse_lambda_params_loop n acc
      else pure acc
    else pure acc

/-- `parse_function_handle` (lines 1387-1413). -/
def parse_function_handle : Nat → Prog MExpr
  | 0 => Prog.throw .fuel
  | n+1 => do
    matchT .AT
    let t_at ← curTok
    if ← peek .BRA then do
      matchT .BRA
      let params ← parse_lambda_params_loop n []
      matchT .KET
      let body ← parse_expression n
      pure (.lambda t_at params body)
    else do
      let name ← parse_simple_name n false
      pure (.function_ptr t_at name)

end

/-- Modelled from the spec: `sty_check_builtin_shadow` lives in the
refactored `m_ast.py` not under `src/`; per the spec it flags assignment
targets that shadow built-in identifier names (config.py names true, false
and pi as examples) and has no other effect. -/
def sty_check_builtin_shadow (n : MExpr) : Prog Unit :=
  match n with
  | .identifier t =>
    if t.value = "true" ∨ t.value = "false" ∨ t.value = "pi" then
      mh_style_issue (some t.loc) "redefinition of builtin function"
    else pure ()
  | _ => pure ()

/-- The bracketed-output collection loop of `parse_function_signature`
(lines 519-525). -/
def parse_sig_outputs_loop : Nat → List MExpr → Prog (List MExpr)
  | 0, _ => Prog.throw .fuel
  | n+1, acc => do
    let x ← parse_identifier true
    let acc := acc ++ [x]
    if ← peek .COMMA then do
      matchT .COMMA
      parse_sig_outputs_loop n acc
    else pure acc

/-- The input collection loop of `parse_function_signature` (lines 560-566). -/
def parse_sig_inputs_loop : Nat → List MExpr → Prog (List MExpr)
  | 0, _ => Prog.throw .fuel
  | n+1, acc => do
    let x ← parse_identifier true
    let acc := acc ++ [x]
    if ← peek .COMMA then do
      matchT .COMMA
      parse_sig_inputs_loop n acc
    else pure acc

/-- `parse_function_signature` (lines 506-574): outputs (bracketed list or a
single bare name), the lookahead disambiguation of the function's own name,
inputs, and the end of statement. -/
def parse_function_signature : Nat → Prog MSig
  | 0 => Prog.throw .fuel
  | n+1 => do
    let outsBr ←
      if ← peek .A_BRA then do
        matchT .A_BRA
        if ← peek .A_KET then do
          matchT .A_KET
          pure (([] : List MExpr), true)
        else do
          let outs ← parse_sig_outputs_loop n []
          matchT .A_KET
          pure (outs, true)
      else do
        let nm ← parse_simple_name n false
        pure ([nm], false)
    let l_outputs := outsBr.1
    let out_brackets := outsBr.2
    let bra ← peek .BRA
    let nl ← peek .NEWLINE
    let nameOuts ←
      match l_outputs, out_brackets with
      | [x], false =>
        if bra then
          pure (x, ([] : List MExpr))
        else if nl then
          pure (x, ([] : List MExpr))
        else do
          matchT .ASSIGNMENT
          let nm ← parse_simple_name n false
          pure (nm, [x])
      | outs, _ => do
        matchT .ASSIGNMENT
        let nm ← parse_simple_name n false
        pure (nm, outs)
    let l_inputs ←
      if ← peek .BRA then do
        matchT .BRA
        if ← peek .KET then do
          matchT .KET
          pure ([] : List MExpr)
        else do
          let ins ← parse_sig_inputs_loop n []
          matchT .KET
          pure ins
      else pure []
    match_eos n "" false
    pure (MSig.mk nameOuts.1 l_inputs nameOuts.2)

/-- The pair collection loop of `parse_name_value_pair_list` (lines 628-644). -/
def parse_nvp_loop : Nat → List MPair → Prog (List MPair)
  | 0, _ => Prog.throw .fuel
  | n+1, acc => do
    let nm ← parse_identifier false
    let pair ←
      if ← peek .ASSIGNMENT then do
        matchT .ASSIGNMENT
        let t_eq ← curTok
        let v ← parse_expression n
        pure (MPair.mk nm (some (t_eq, v)))
      else pure (MPair.mk nm none)
    let acc := acc ++ [pair]
    if ← peek .COMMA then do
      matchT .COMMA
      parse_nvp_loop n acc
    else pure acc

/-- `parse_name_value_pair_list` (lines 620-648). -/
def parse_name_value_pair_list : Nat → Prog (List MPair)
  | 0 => Prog.throw .fuel
  | n+1 => do
    if ← peek .BRA then do
      matchT .BRA
      let ps ← parse_nvp_loop n []
      matchT .KET
      pure ps
    else pure []

/-- The dimension-token loop of `parse_validation_block` (lines 687-703): an
integral number or a `:` per element, anything else is a fatal error. -/
def parse_vb_dim_loop : Nat → List Token → Prog (List Token)
  | 0, _ => Prog.throw .fuel
  | n+1, acc => do
    let acc ← do
      if ← peek .NUMBER then do
        matchT .NUMBER
        pure (acc ++ [← curTok])
      else if ← peek .COLON then do
        matchT .COLON
        pure (acc ++ [← curTok])
      else do
        let st ← Prog.get
        (Prog.throw (.err (st.nt.map (·.loc))
          "dimension validation may contain only integral numbers or :") : Prog (List Token))
    if ← peek .COMMA then do
      matchT .COMMA
      parse_vb_dim_loop n acc
    else pure acc

/-- The functional-validator loop of `parse_validation_block` (lines 729-736). -/
def parse_vb_fun_loop : Nat → List MExpr → Prog (List MExpr)
  | 0, _ => Prog.throw .fuel
  | n+1, acc => do
    let f ← parse_name n false
    let acc := acc ++ [f]
    if ← peek .COMMA then do
      matchT .COMMA
      parse_vb_fun_loop n acc
    else pure acc

/-- The per-entry loop of `parse_validation_block` (lines 666-749): name,
optional dimension constraint (a single-entry list is reported non-fatally
and not recorded; two or more entries are recorded), optional class
constraint, optional functional validators, optional default value. -/
def parse_vb_entries_loop : Nat → Token → List MConstraint → Prog (List MConstraint)
  | 0, _, _ => Prog.throw .fuel
  | n+1, t_kw, acc => do
    if !(← peekV .KEYWORD "end") then do
      let n_name ←
        if t_kw.value = "arguments" then
          parse_simple_name n true
        else
          parse_identifier false
      let val_dim ←
        if ← peek .BRA then do
          matchT .BRA
          let ds ← parse_vb_dim_loop n []
          matchT .KET
          pure ds
        else pure ([] : List Token)
      let dims ←
        if val_dim.length = 1 then do
          let st ← Prog.get
          mh_error_nonfatal (st.ct.map (·.loc))
            "in MATLAB dimension constraints must contain at least two dimensions"
          pure ([] : List Token)
        else if val_dim.length ≥ 2 then
          pure val_dim
        else pure ([] : List Token)
      let classc ←
        if ← peek .IDENTIFIER then do
          let c ← parse_simple_name n false
          pure (some c)
        else pure none
      let funcs ←
        if ← peek .C_BRA then do
          matchT .C_BRA
          let fs ← parse_vb_fun_loop n []
          matchT .C_KET
          pure fs
        else pure ([] : List MExpr)
      let defv ←
        if ← peek .ASSIGNMENT then do
          matchT .ASSIGNMENT
          let d ← parse_expression n
          pure (some d)
        else pure none
      match_eos n "" false
      parse_vb_entries_loop n t_kw (acc ++ [MConstraint.mk n_name dims classc funcs defv])
    else pure acc

/-- `parse_validation_block` (lines 650-755), shared by `arguments` and
`properties` blocks. -/
def parse_validation_block : Nat → Prog MBlock
  | 0 => Prog.throw .fuel
  | n+1 => do
    if ← peekV .KEYWORD "arguments" then
      matchTV .KEYWORD "arguments"
    else
      matchTV .KEYWORD "properties"
    let t_kw ← curTok
    let attrs ← parse_name_value_pair_list n
    match_eos n "" false
    let entries ← parse_vb_entries_loop n t_kw []
    matchTV .KEYWORD "end"
    match_eos n "" false
    pure (MBlock.mk t_kw attrs (entries.map MItem.constraint))

/-- The event collection loop of `parse_class_events` (lines 829-831). -/
def parse_class_events_loop : Nat → List MItem → Prog (List MItem)
  | 0, _ => Prog.throw .fuel
  | n+1, acc => do
    if !(← peekV .KEYWORD "end") then do
      let e ← parse_identifier false
      match_eos n "" false
      parse_class_events_loop n (acc ++ [MItem.event e])
    else pure acc

/-- `parse_class_events` (lines 820-837). -/
def parse_class_events : Nat → Prog MBlock
  | 0 => Prog.throw .fuel
  | n+1 => do
    matchTV .KEYWORD "events"
    let t_kw ← curTok
    match_eos n "" false
    let items ← parse_class_events_loop n []
    matchTV .KEYWORD "end"
    match_eos n "" false
    pure (MBlock.mk t_kw [] items)

/-- The argument loop of one enumeration literal (lines 799-805). -/
def parse_enum_args_loop : Nat → List MExpr → Prog (List MExpr)
  | 0, _ => Prog.throw .fuel
  | n+1, acc => do
    let e ← parse_expression n
    let acc := acc ++ [e]
    if ← peek .COMMA then do
      matchT .COMMA
      parse_enum_args_loop n acc
    else pure acc

/-- The entry loop of `parse_enumeration` (lines 792-812). -/
def parse_enumeration_loop : Nat → List MItem → Prog (List MItem)
  | 0, _ => Prog.throw .fuel
  | n+1, acc => do
    if !(← peekV .KEYWORD "end") then do
      let nm ← parse_identifier false
      let args ←
        if ← peek .BRA then do
          matchT .BRA
          let args ← parse_enum_args_loop n []
          matchT .KET
          pure args
        else pure ([] : List MExpr)
      match_eos n "" false
      parse_enumeration_loop n (acc ++ [MItem.enum nm args])
    else pure acc

/-- `parse_enumeration` (lines 782-818). -/
def parse_enumeration : Nat → Prog MBlock
  | 0 => Prog.throw .fuel
  | n+1 => do
    matchTV .KEYWORD "enumeration"
    let t_kw ← curTok
    match_eos n "" false
    let items ← parse_enumeration_loop n []
    matchTV .KEYWORD "end"
    match_eos n "" false
    pure (MBlock.mk t_kw [] items)

/-- `parse_return_statement` (lines 1496-1501). -/
def parse_return_statement (fuel : Nat) : Prog MStmt := do
  matchTV .KEYWORD "return"
  let t ← curTok
  match_eos fuel "" false
  pure (.return_stmt t)

/-- `parse_break_statement` (lines 1503-1514): the out-of-loop check is a
non-fatal error. -/
def parse_break_statement (fuel : Nat) : Prog MStmt := do
  matchTV .KEYWORD "break"
  let t ← curTok
  if !(← in_contextP .loopC) then
    mh_error_nonfatal (some t.loc) "break must appear inside loop"
  match_eos fuel "" false
  pure (.break_stmt t)

/-- `parse_continue_statement` (lines 1516-1527). -/
def parse_continue_statement (fuel : Nat) : Prog MStmt := do
  matchTV .KEYWORD "continue"
  let t ← curTok
  if !(← in_contextP .loopC) then
    mh_error_nonfatal (some t.loc) "continue must appear inside loop"
  match_eos fuel "" false
  pure (.continue_stmt t)

/-- The name loop of `parse_global_statement` (lines 1635-1645). -/
def parse_global_loop : Nat → Token → List MExpr → Prog MStmt
  | 0, _, _ => Prog.throw .fuel
  | n+1, t_kw, acc => do
    let nm ← parse_identifier false
    let acc := acc ++ [nm]
    if ← peek .NEWLINE then do
      matchT .NEWLINE
      pure (.global_stmt t_kw acc)
    else if ← peek .SEMICOLON then do
      matchT .SEMICOLON
      matchT .NEWLINE
      pure (.global_stmt t_kw acc)
    else
      parse_global_loop n t_kw acc

/-- `parse_global_statement` (lines 1631-1646). -/
def parse_global_statement (fuel : Nat) : Prog MStmt := do
  matchTV .KEYWORD "global"
  let t ← curTok
  parse_global_loop fuel t []

/-- The name loop of `parse_persistent_statement` (lines 1652-1656). -/
def parse_persistent_loop : Nat → Token → List MExpr → Prog MStmt
  | 0, _, _ => Prog.throw .fuel
  | n+1, t_kw, acc => do
    let nm ← parse_identifier false
    let acc := acc ++ [nm]
    if ← peek_eos then do
      match_eos n "" false
      pure (.persistent_stmt t_kw acc)
    else
      parse_persistent_loop n t_kw acc

/-- `parse_persistent_statement` (lines 1648-1658). -/
def parse_persistent_statement (fuel : Nat) : Prog MStmt := do
  matchTV .KEYWORD "persistent"
  let t ← curTok
  parse_persistent_loop fuel t []

/-- The chain loop of `parse_import_statement` (lines 1710-1719). -/
def parse_import_loop : Nat → List Token → Prog (List Token)
  | 0, _ => Prog.throw .fuel
  | n+1, acc => do
    if (← peek .SELECTION) || (← peekV .OPERATOR ".*") then
      if ← peekV .OPERATOR ".*" then do
        matchTV .OPERATOR ".*"
        pure (acc ++ [← curTok])
      else do
        matchT .SELECTION
        matchT .IDENTIFIER
        parse_import_loop n (acc ++ [← curTok])
    else pure acc

/-- `parse_import_statement` (lines 1694-1724). -/
def parse_import_statement (fuel : Nat) : Prog MStmt := do
  matchTV .KEYWORD "import"
  let t ← curTok
  matchT .IDENTIFIER
  let first ← curTok
  let chain ← parse_import_loop fuel [first]
  match_eos fuel "" false
  pure (.import_stmt t chain)

/-- The target loop of `parse_list_assignment` (lines 1021-1038), including
the void-target comma quirk: after a `~` a comma is mandatory before the
next target. -/
def parse_list_assignment_loop : Nat → Bool → List MExpr → Prog (List MExpr)
  | 0, _, _ => Prog.throw .fuel
  | n+1, require_comma, acc => do
    let require_comma ←
      if ← peekV .OPERATOR "~" then pure true else pure require_comma
    let target ← parse_name n true
    if ← Prog.activeRule "builtin_shadow" then
      sty_check_builtin_shadow target
    let acc := acc ++ [target]
    if ((← peek .COMMA) || require_comma) && !(← peek .A_KET) then do
      matchT .COMMA
      if ← peek .A_KET then
        pure acc
      else
        parse_list_assignment_loop n false acc
    else
      if ← peek .A_KET then
        pure acc
      else
        parse_list_assignment_loop n require_comma acc

/-- `parse_list_assignment` (lines 1002-1060).  The source parses the
right-hand side with `parse_expression` in both the single-target and the
multi-target case, so the length distinction is not reflected here. -/
def parse_list_assignment : Nat → Prog MStmt
  | 0 => Prog.throw .fuel
  | n+1 => do
    matchT .A_BRA
    if ← peek .COMMA then
      matchT .COMMA
    else pure ()
    let lhs ← parse_list_assignment_loop n false []
    matchT .A_KET
    matchT .ASSIGNMENT
    let t_eq ← curTok
    let rhs ← parse_expression n
    match_eos n ";" false
    pure (.compound_assignment lhs t_eq rhs)

/-- `parse_for_assignment` (lines 1529-1555). -/
def parse_for_assignment : Nat → Bool → Bool → Prog (MExpr × MExpr)
  | 0, _, _ => Prog.throw .fuel
  | n+1, allow_brackets, allow_recursion => do
    if (← peek .BRA) && allow_brackets then do
      matchT .BRA
      let r ← parse_for_assignment n allow_recursion allow_recursion
      matchT .KET
      pure r
    else do
      let n_ident ← parse_identifier false
      matchT .ASSIGNMENT
      let n_expr ← parse_expression n
      pure (n_ident, n_expr)

/-- The superclass loop of `parse_classdef` (lines 860-868). -/
def parse_classdef_super_loop : Nat → List MExpr → Prog (List MExpr)
  | 0, _ => Prog.throw .fuel
  | n+1, acc => do
    let sc ← parse_simple_name n false
    let acc := acc ++ [sc]
    if ← peekV .OPERATOR "&" then do
      matchTV .OPERATOR "&"
      parse_classdef_super_loop n acc
    else pure acc

/-- `reorder_as_function_list` (lines 488-504): flatten the provisional
nesting of end-less functions; a parent with more than one nested child here
is a logic error (ICE).  Popping the single child empties the parent's
nested list. -/
def reorder_as_function_list : Nat → MFuncDef → Prog (List MFuncDef)
  | 0, _ => Prog.throw .fuel
  | n+1, fd => do
    match fd with
    | .mk t s v b nested =>
      match nested with
      | [] => pure [fd]
      | [child] => do
        let rest ← reorder_as_function_list n child
        pure (MFuncDef.mk t s v b [] :: rest)
      | _ => Prog.throw (.ice "logic error")

mutual

/-- `parse_statement` (lines 911-1000): keyword dispatch, the `!` escape,
bracketed list assignment, and the assignment / command-form / naked
expression disambiguation. -/
def parse_statement : Nat → Prog MStmt
  | 0 => Prog.throw .fuel
  | n+1 => do
    if ← peek .KEYWORD then do
      let st ← Prog.get
      match st.nt with
      | none => Prog.throw (.ice "nt is None")
      | some t =>
        if t.value = "for" then parse_for_statement n
        else if t.value = "if" then parse_if_statement n
        else if t.value = "global" then parse_global_statement n
        else if t.value = "while" then parse_while_statement n
        else if t.value = "return" then parse_return_statement n
        else if t.value = "switch" then parse_switch_statement n
        else if t.value = "break" then parse_break_statement n
        else if t.value = "continue" then parse_continue_statement n
        else if t.value = "import" then parse_import_statement n
        else if t.value = "try" then parse_try_statement n
        else if t.value = "persistent" then parse_persistent_statement n
        else if t.value = "parfor" then parse_parfor_statement n
        else if t.value = "spmd" then parse_spmd_statement n
        else if t.value = "function" && in_context .funC st.context then
          match st.context with
          | c :: _ =>
            if c ≠ .funC then
              Prog.throw (.err (some t.loc)
                ("nested function cannot appear inside " ++ ctxStr c))
            else do
              let fd ← parse_function_def n
              pure (.func_def fd)
          | [] => Prog.throw (.ice "empty context")
        else
          Prog.throw (.err (some t.loc)
            ("expected valid statement, found keyword " ++ quoted t.value ++ " instead"))
    else if ← peek .BANG then do
      matchT .BANG
      let t_bang ← curTok
      matchT .NEWLINE
      pure (.naked (.function_call (.identifier t_bang) [.char_array t_bang] .escape))
    else if ← peek .A_BRA then
      parse_list_assignment n
    else do
      let rv ← parse_expression n
      if ← peek .ASSIGNMENT then do
        matchT .ASSIGNMENT
        let t_eq ← curTok
        if !(isName rv) then
          Prog.throw (.err (some t_eq.loc)
            ("left-hand side of assignment must be a Name, found "
              ++ className rv ++ " instead"))
        else do
          let rhs ← parse_expression n
          if ← Prog.activeRule "builtin_shadow" then
            sty_check_builtin_shadow rv
          let s := MStmt.simple_assignment t_eq rv rhs
          match_eos n ";" false
          pure s
      else if ← peek .CARRAY then do
        if !(isIdentOrSelection rv) then do
          let st ← Prog.get
          Prog.throw (.err (st.ct.map (·.loc))
            ("command form requires a simple (dotted) identifier; found "
              ++ className rv ++ " instead"))
        else do
          let args ← parse_command_args n []
          let s := MStmt.naked (.function_call rv args .command)
          match_eos n ";" false
          pure s
      else do
        let s := MStmt.naked rv
        match_eos n ";" false
        pure s

/-- `parse_delimited_input` (lines 896-909). -/
def parse_delimited_input : Nat → List MStmt → Prog (List MStmt)
  | 0, _ => Prog.throw .fuel
  | n+1, acc => do
    let st ← Prog.get
    let stop : Bool :=
      match st.nt with
      | some t => t.kind == .KEYWORD &&
          ["end", "catch", "case", "otherwise", "else", "elseif"].contains t.value
      | none => false
    if stop then pure acc
    else do
      let s ← parse_statement n
      parse_delimited_input n (acc ++ [s])

/-- The `elseif` loop of `parse_if_statement` (lines 1473-1479). -/
def parse_if_actions_loop : Nat → List MAction → Prog (List MAction)
  | 0, _ => Prog.throw .fuel
  | n+1, acc => do
    if ← peekV .KEYWORD "elseif" then do
      matchTV .KEYWORD "elseif"
      let t ← curTok
      let g ← parse_expression n
      match_eos n "" true
      let body ← parse_delimited_input n []
      parse_if_actions_loop n (acc ++ [MAction.mk t (some g) body])
    else pure acc

/-- `parse_if_statement` (lines 1462-1494). -/
def parse_if_statement : Nat → Prog MStmt
  | 0 => Prog.throw .fuel
  | n+1 => do
    matchTV .KEYWORD "if"
    Prog.push .ifC
    let t ← curTok
    let g ← parse_expression n
    match_eos n "" true
    let body ← parse_delimited_input n []
    let acc ← parse_if_actions_loop n [MAction.mk t (some g) body]
    let acc ←
      if ← peekV .KEYWORD "else" then do
        matchTV .KEYWORD "else"
        let te ← curTok
        match_eos n "" true
        let ebody ← parse_delimited_input n []
        pure (acc ++ [MAction.mk te none ebody])
      else pure acc
    matchTV .KEYWORD "end"
    let rv := MStmt.if_stmt acc
    match_eos n "" false
    Prog.pop
    pure rv

/-- `parse_for_statement` (lines 1557-1574). -/
def parse_for_statement : Nat → Prog MStmt
  | 0 => Prog.throw .fuel
  | n+1 => do
    matchTV .KEYWORD "for"
    Prog.push .loopC
    let t ← curTok
    let ie ← parse_for_assignment n true false
    match_eos n "" false
    let body ← parse_delimited_input n []
    matchTV .KEYWORD "end"
    let rv := MStmt.for_stmt t ie.1 ie.2 body
    match_eos n "" false
    Prog.pop
    pure rv

/-- `parse_parfor_statement` (lines 1576-1613); a non-range loop expression
is an internal error (`raise ICE`). -/
def parse_parfor_statement : Nat → Prog MStmt
  | 0 => Prog.throw .fuel
  | n+1 => do
    matchTV .KEYWORD "parfor"
    Prog.push .loopC
    let t ← curTok
    let iew ←
      if ← peek .BRA then do
        matchT .BRA
        let ie ← parse_for_assignment n false false
        let w ←
          if ← peek .COMMA then do
            matchT .COMMA
            let w ← parse_expression n
            pure (some w)
          else pure none
        matchT .KET
        pure (ie.1, ie.2, w)
      else do
        let ie ← parse_for_assignment n false false
        pure (ie.1, ie.2, (none : Option MExpr))
    let isRange :=
      match iew.2.1 with
      | .range_expr _ _ _ _ => true
      | _ => false
    if !isRange then
      Prog.throw (.ice "parfor range is not a range")
    else pure ()
    match_eos n "" false
    let body ← parse_delimited_input n []
    matchTV .KEYWORD "end"
    let rv := MStmt.parfor_stmt t iew.1 iew.2.1 iew.2.2 body
    match_eos n "" false
    Prog.pop
    pure rv

/-- `parse_while_statement` (lines 1615-1629). -/
def parse_while_statement : Nat → Prog MStmt
  | 0 => Prog.throw .fuel
  | n+1 => do
    matchTV .KEYWORD "while"
    Prog.push .loopC
    let t_kw ← curTok
    let n_guard ← parse_expression n
    match_eos n "" false
    let body ← parse_delimited_input n []
    matchTV .KEYWORD "end"
    let rv := MStmt.while_stmt t_kw n_guard body
    match_eos n "" false
    Prog.pop
    pure rv

/-- The case/otherwise loop of `parse_switch_statement` (lines 1668-1685). -/
def parse_switch_options_loop : Nat → List MAction → Prog (List MAction)
  | 0, _ => Prog.throw .fuel
  | n+1, acc => do
    if ← peekV .KEYWORD "otherwise" then do
      matchTV .KEYWORD "otherwise"
      let t ← curTok
      match_eos n "" true
      let body ← parse_delimited_input n []
      pure (acc ++ [MAction.mk t none body])
    else do
      matchTV .KEYWORD "case"
      let t ← curTok
      let e ← parse_expression n
      match_eos n "" true
      let body ← parse_delimited_input n []
      let acc := acc ++ [MAction.mk t (some e) body]
      if ← peekV .KEYWORD "end" then
        pure acc
      else
        parse_switch_options_loop n acc

/-- `parse_switch_statement` (lines 1660-1692). -/
def parse_switch_statement : Nat → Prog MStmt
  | 0 => Prog.throw .fuel
  | n+1 => do
    matchTV .KEYWORD "switch"
    Prog.push .switchC
    let t_switch ← curTok
    let n_switch_expr ← parse_expression n
    match_eos n "" false
    let opts ← parse_switch_options_loop n []
    matchTV .KEYWORD "end"
    let rv := MStmt.switch_stmt t_switch n_switch_expr opts
    match_eos n "" false
    Prog.pop
    pure rv

/-- `parse_try_statement` (lines 1726-1754); a missing catch block is
accepted. -/
def parse_try_statement : Nat → Prog MStmt
  | 0 => Prog.throw .fuel
  | n+1 => do
    matchTV .KEYWORD "try"
    Prog.push .blockC
    let t_try ← curTok
    match_eos n "" true
    let body ← parse_delimited_input n []
    let identHandler ←
      if ← peekV .KEYWORD "end" then
        pure ((none : Option MExpr), (none : Option (Token × List MStmt)))
      else do
        matchTV .KEYWORD "catch"
        let t_catch ← curTok
        let ident ←
          if !(← peek_eos) then do
            let i ← parse_identifier false
            pure (some i)
          else pure none
        match_eos n "" false
        let h ← parse_delimited_input n []
        pure (ident, some (t_catch, h))
    matchTV .KEYWORD "end"
    let rv := MStmt.try_stmt t_try body identHandler.1 identHandler.2
    match_eos n "" false
    Prog.pop
    pure rv

/-- `parse_spmd_statement` (lines 1756-1768). -/
def parse_spmd_statement : Nat → Prog MStmt
  | 0 => Prog.throw .fuel
  | n+1 => do
    matchTV .KEYWORD "spmd"
    Prog.push .blockC
    let t ← curTok
    match_eos n "" false
    let body ← parse_delimited_input n []
    matchTV .KEYWORD "end"
    let rv := MStmt.spmd_stmt t body
    match_eos n "" false
    Prog.pop
    pure rv

/-- The argument-validation loop of `parse_function_def` (lines 588-589). -/
def parse_fdef_argval_loop : Nat → List MBlock → Prog (List MBlock)
  | 0, _ => Prog.throw .fuel
  | n+1, acc => do
    if ← peekV .KEYWORD "arguments" then do
      let b ← parse_validation_block n
      parse_fdef_argval_loop n (acc ++ [b])
    else pure acc

/-- The body loop of `parse_function_def` (lines 592-597): collect
statements, diverting nested function definitions. -/
def parse_fdef_body_loop : Nat → List MStmt → List MFuncDef → Prog (List MStmt × List MFuncDef)
  | 0, _, _ => Prog.throw .fuel
  | n+1, body, nested => do
    if !(← peekV .KEYWORD "end") && !(← peek_eof) then do
      let item ← parse_statement n
      match item with
      | .func_def fd => parse_fdef_body_loop n body (nested ++ [fd])
      | s => parse_fdef_body_loop n (body ++ [s]) nested
    else pure (body, nested)

/-- `parse_function_def` (lines 576-618), including the
functions-require-end decision at the end: at EOF with the flag set the
parse fails fatally; at EOF with the flag clear the missing `end` is
tolerated; otherwise the flag is set and the `end` keyword is consumed. -/
def parse_function_def : Nat → Prog MFuncDef
  | 0 => Prog.throw .fuel
  | n+1 => do
    matchTV .KEYWORD "function"
    Prog.push .funC
    let t_fun ← curTok
    let n_sig ← parse_function_signature n
    let l_argval ← parse_fdef_argval_loop n []
    let bodyNested ← parse_fdef_body_loop n [] []
    let rv := MFuncDef.mk t_fun n_sig l_argval bodyNested.1 bodyNested.2
    let st ← Prog.get
    if peekEofSt st && st.functions_require_end then
      Prog.throw (.err (some t_fun.loc) "this function must be terminated with end")
    else if peekEofSt st then do
      Prog.pop
      pure rv
    else do
      Prog.setRE
      matchTV .KEYWORD "end"
      match_eos n "" false
      Prog.pop
      pure rv

/-- The item loop of `parse_class_methods` (lines 770-774). -/
def parse_class_methods_loop : Nat → List MItem → Prog (List MItem)
  | 0, _ => Prog.throw .fuel
  | n+1, acc => do
    if !(← peekV .KEYWORD "end") then
      if ← peekV .KEYWORD "function" then do
        let fd ← parse_function_def n
        parse_class_methods_loop n (acc ++ [MItem.method_def fd])
      else do
        let s ← parse_function_signature n
        parse_class_methods_loop n (acc ++ [MItem.method_sig s])
    else pure acc

/-- `parse_class_methods` (lines 757-780). -/
def parse_class_methods : Nat → Prog MBlock
  | 0 => Prog.throw .fuel
  | n+1 => do
    matchTV .KEYWORD "methods"
    let t_kw ← curTok
    let attrs ← parse_name_value_pair_list n
    match_eos n "" false
    let items ← parse_class_methods_loop n []
    matchTV .KEYWORD "end"
    match_eos n "" false
    pure (MBlock.mk t_kw attrs items)

/-- The block dispatch loop of `parse_classdef` (lines 873-887); the
kind-based dispatch of `Class_Definition.add_block` is inlined into the
branches. -/
def parse_classdef_blocks_loop : Nat → MClassDef → Prog MClassDef
  | 0, _ => Prog.throw .fuel
  | n+1, cd => do
    if ← peekV .KEYWORD "properties" then do
      let b ← parse_validation_block n
      parse_classdef_blocks_loop n { cd with l_properties := cd.l_properties ++ [b] }
    else if ← peekV .KEYWORD "methods" then do
      let b ← parse_class_methods n
      parse_classdef_blocks_loop n { cd with l_methods := cd.l_methods ++ [b] }
    else if ← peekV .KEYWORD "events" then do
      let b ← parse_class_events n
      parse_classdef_blocks_loop n { cd with l_events := cd.l_events ++ [b] }
    else if ← peekV .KEYWORD "enumeration" then do
      let b ← parse_enumeration n
      parse_classdef_blocks_loop n { cd with l_enumerations := cd.l_enumerations ++ [b] }
    else if ← peekV .KEYWORD "end" then
      pure cd
    else do
      let st ← Prog.get
      Prog.throw (.err (st.nt.map (·.loc))
        "expected properties|methods|events|enumeration inside classdef")

/-- `parse_classdef` (lines 839-894). -/
def parse_classdef : Nat → Prog MClassDef
  | 0 => Prog.throw .fuel
  | n+1 => do
    matchTV .KEYWORD "classdef"
    Prog.push .clsC
    let t_cd ← curTok
    let attrs ← parse_name_value_pair_list n
    let n_name ← parse_identifier false
    let l_super ←
      if ← peekV .OPERATOR "<" then do
        matchTV .OPERATOR "<"
        parse_classdef_super_loop n []
      else pure ([] : List MExpr)
    match_eos n "" false
    let cd ← parse_classdef_blocks_loop n ⟨t_cd, attrs, n_name, l_super, [], [], [], []⟩
    matchTV .KEYWORD "end"
    match_eos n "" false
    Prog.pop
    pure cd

/-- The collection loop of `parse_function_list` (lines 478-479). -/
def parse_function_list_loop : Nat → List MFuncDef → Prog (List MFuncDef)
  | 0, _ => Prog.throw .fuel
  | n+1, acc => do
    if ← peekV .KEYWORD "function" then do
      let fd ← parse_function_def n
      parse_function_list_loop n (acc ++ [fd])
    else pure acc

/-- `parse_function_list` (lines 476-486): when no function used an explicit
`end`, the provisionally nested chain is flattened back into a list. -/
def parse_function_list : Nat → Prog (List MFuncDef)
  | 0 => Prog.throw .fuel
  | n+1 => do
    let l ← parse_function_list_loop n []
    let st ← Prog.get
    if !st.functions_require_end && !l.isEmpty then
      match l with
      | [fd] => reorder_as_function_list n fd
      | _ => Prog.throw (.ice "logic error")
    else pure l

/-- The statement loop of `parse_script_file` (lines 451-455). -/
def parse_script_stmts_loop : Nat → List MStmt → Prog (List MStmt)
  | 0, _ => Prog.throw .fuel
  | n+1, acc => do
    if ← peek_eof then pure acc
    else if ← peekV .KEYWORD "function" then pure acc
    else do
      let s ← parse_statement n
      parse_script_stmts_loop n (acc ++ [s])

/-- `parse_script_file` (lines 449-463); the stored name is the base name of
the lexer's file name. -/
def parse_script_file : Nat → Prog CompUnit
  | 0 => Prog.throw .fuel
  | n+1 => do
    let stmts ← parse_script_stmts_loop n []
    let funcs ← parse_function_list n
    let st ← Prog.get
    pure (.script_file st.filename stmts funcs)

/-- `parse_class_file` (lines 465-474): class files always require `end`
terminated functions. -/
def parse_class_file : Nat → Prog CompUnit
  | 0 => Prog.throw .fuel
  | n+1 => do
    Prog.setRE
    let cd ← parse_classdef n
    let funcs ← parse_function_list n
    let st ← Prog.get
    pure (.class_file st.filename cd funcs)

/-- The leading-newline skip of `parse_file` (lines 430-431). -/
def parse_file_skip_newlines : Nat → Prog Unit
  | 0 => Prog.throw .fuel
  | n+1 => do
    if ← peek .NEWLINE then do
      Prog.next
      parse_file_skip_newlines n
    else pure ()

/-- `parse_file` (lines 426-447): classify the compilation unit and parse
it, then require end of file. -/
def parse_file : Nat → Prog CompUnit
  | 0 => Prog.throw .fuel
  | n+1 => do
    parse_file_skip_newlines n
    let st ← Prog.get
    let cunit ←
      if ← peekV .KEYWORD "function" then do
        let funcs ← parse_function_list n
        pure (CompUnit.function_file st.filename funcs st.in_class_directory)
      else if (← peekV .KEYWORD "classdef") || st.in_class_directory then
        parse_class_file n
      else
        parse_script_file n
    match_eofP
    pure cunit

end

/-- Abbreviation for building a token. -/
def tok (k : TKind) (v : String) (l : Nat) : Token := ⟨k, v, l⟩

/-- A fresh parser state over a token stream (a plain script-directory file
called test.m). -/
def stateOf (toks : List Token) : PState := initParser "test.m" false toks

/-- A configuration with the two style rules the parser consults suppressed,
so that concrete runs carry no style noise. -/
def quietCfg : Cfg := ⟨["end_of_statements", "builtin_shadow"]⟩

/-- The value produced by a run, if it succeeds. -/
def runVal {α : Type} (cfg : Cfg) (p : Prog α) (st : PState) : Option α :=
  match interp cfg p st with
  | .ok (a, _) => some a
  | .error _ => none

/-- The diagnostics accumulated by a successful run. -/
def runMsgs {α : Type} (cfg : Cfg) (p : Prog α) (st : PState) : Option (List Diag) :=
  match interp cfg p st with
  | .ok (_, st') => some st'.messages
  | .error _ => none

/-- The fatal outcome of a failed run. -/
def runErr {α : Type} (cfg : Cfg) (p : Prog α) (st : PState) : Option Fatal :=
  match interp cfg p st with
  | .ok _ => none
  | .error e => some e

/-- Token stream of the expression `2^-3^2`. -/
def c2Toks : List Token :=
  [tok .NUMBER "2" 0, tok .OPERATOR "^" 1, tok .OPERATOR "-" 2,
   tok .NUMBER "3" 3, tok .OPERATOR "^" 4, tok .NUMBER "2" 5]

/-- Token stream of the expression `1:10`. -/
def c3aToks : List Token :=
  [tok .NUMBER "1" 0, tok .COLON "" 1, tok .NUMBER "10" 2]

/-- Token stream of the expression `1:2:10`. -/
def c3bToks : List Token :=
  [tok .NUMBER "1" 0, tok .COLON "" 1, tok .NUMBER "2" 2,
   tok .COLON "" 3, tok .NUMBER "10" 4]

/-- Token stream of the expression `a < b`. -/
def c6abToks : List Token :=
  [tok .IDENTIFIER "a" 0, tok .OPERATOR "<" 1, tok .IDENTIFIER "b" 2]

/-- Token stream of the expression `a < b < c`. -/
def c6abcToks : List Token :=
  [tok .IDENTIFIER "a" 0, tok .OPERATOR "<" 1, tok .IDENTIFIER "b" 2,
   tok .OPERATOR "<" 3, tok .IDENTIFIER "c" 4]

/-- Token stream of the expression `a < b < c < d`. -/
def c6abcdToks : List Token :=
  [tok .IDENTIFIER "a" 0, tok .OPERATOR "<" 1, tok .IDENTIFIER "b" 2,
   tok .OPERATOR "<" 3, tok .IDENTIFIER "c" 4, tok .OPERATOR "<" 5,
   tok .IDENTIFIER "d" 6]

/-- Token stream of the validation block `arguments / x (1) double / end`. -/
def c7aToks : List Token :=
  [tok .KEYWORD "arguments" 0, tok .NEWLINE "" 1, tok .IDENTIFIER "x" 2,
   tok .BRA "" 3, tok .NUMBER "1" 4, tok .KET "" 5, tok .IDENTIFIER "double" 6,
   tok .NEWLINE "" 7, tok .KEYWORD "end" 8, tok .NEWLINE "" 9]

/-- Token stream of the validation block `arguments / x (1,2) double / end`. -/
def c7bToks : List Token :=
  [tok .KEYWORD "arguments" 0, tok .NEWLINE "" 1, tok .IDENTIFIER "x" 2,
   tok .BRA "" 3, tok .NUMBER "1" 4, tok .COMMA "" 5, tok .NUMBER "2" 6,
   tok .KET "" 7, tok .IDENTIFIER "double" 8, tok .NEWLINE "" 9,
   tok .KEYWORD "end" 10, tok .NEWLINE "" 11]

/-- Token stream of the validation block `arguments / x (foo) / end`. -/
def c7cToks : List Token :=
  [tok .KEYWORD "arguments" 0, tok .NEWLINE "" 1, tok .IDENTIFIER "x" 2,
   tok .BRA "" 3, tok .IDENTIFIER "foo" 4, tok .KET "" 5,
   tok .NEWLINE "" 6, tok .KEYWORD "end" 7, tok .NEWLINE "" 8]

/-- Token stream of the statement `break` at top level (no loop context). -/
def c8Toks : List Token := [tok .KEYWORD "break" 0, tok .NEWLINE "" 1]

/-- Token stream of the statement `continue` at top level. -/
def c8cToks : List Token := [tok .KEYWORD "continue" 0, tok .NEWLINE "" 1]

/-- Token stream of the statement `x = 1`. -/
def c5aToks : List Token :=
  [tok .IDENTIFIER "x" 0, tok .ASSIGNMENT "" 1, tok .NUMBER "1" 2, tok .NEWLINE "" 3]

/-- Token stream of the statement `1 = x` (a non-Name left-hand side). -/
def c5bToks : List Token :=
  [tok .NUMBER "1" 0, tok .ASSIGNMENT "" 1, tok .IDENTIFIER "x" 2, tok .NEWLINE "" 3]

/-- Token stream of the shell-escape statement `!ls -l`. -/
def c9aToks : List Token := [tok .BANG "ls -l" 0, tok .NEWLINE "" 1]

/-- Token stream of the command-form statement `disp hello`. -/
def c9bToks : List Token :=
  [tok .IDENTIFIER "disp" 0, tok .CARRAY "hello" 1, tok .NEWLINE "" 2]

/-- Token stream of `5 hello` (command form with a non-identifier callee). -/
def c9cToks : List Token :=
  [tok .NUMBER "5" 0, tok .CARRAY "hello" 1, tok .NEWLINE "" 2]

/-- A function file whose first function is `end`-terminated while the
second reaches end of input without `end`:
`function f() / end / function g()`. -/
def c1fatalToks : List Token :=
  [tok .KEYWORD "function" 0, tok .IDENTIFIER "f" 1, tok .BRA "" 2, tok .KET "" 3,
   tok .NEWLINE "" 4, tok .KEYWORD "end" 5, tok .NEWLINE "" 6,
   tok .KEYWORD "function" 7, tok .IDENTIFIER "g" 8, tok .BRA "" 9, tok .KET "" 10,
   tok .NEWLINE "" 11]

/-- A function file with both functions `end`-terminated. -/
def c1okToks : List Token :=
  [tok .KEYWORD "function" 0, tok .IDENTIFIER "f" 1, tok .BRA "" 2, tok .KET "" 3,
   tok .NEWLINE "" 4, tok .KEYWORD "end" 5, tok .NEWLINE "" 6,
   tok .KEYWORD "function" 7, tok .IDENTIFIER "g" 8, tok .BRA "" 9, tok .KET "" 10,
   tok .NEWLINE "" 11, tok .KEYWORD "end" 12, tok .NEWLINE "" 13]

/-- Token stream of the expression `2^-3` (one power step followed by end
of input). -/
def c2wToks : List Token :=
  [tok .NUMBER "2" 0, tok .OPERATOR "^" 1, tok .OPERATOR "-" 2,
   tok .NUMBER "3" 3]

/-- Token stream consisting of the keyword token `end`. -/
def c10Toks : List Token := [tok .KEYWORD "end" 0]

/-- The state right after `parse_function_def` has consumed the `function`
keyword and pushed the `function` context frame. -/
def afterFunKw (st : PState) : PState :=
  { nextState st with context := Ctx.funC :: (nextState st).context }

/-! Basic laws of the interpreter. -/

theorem bind_is_bind {α β : Type} (p : Prog α) (f : α → Prog β) :
    p >>= f = Prog.bind p f := rfl

@[simp] theorem interp_ret {α : Type} (cfg : Cfg) (a : α) (st : PState) :
    interp cfg (Prog.ret a) st = .ok (a, st) := rfl

@[simp] theorem interp_pure {α : Type} (cfg : Cfg) (a : α) (st : PState) :
    interp cfg (pure a : Prog α) st = .ok (a, st) := rfl

@[simp] theorem interp_fatal_eq {α : Type} (cfg : Cfg) (e : Fatal) (st : PState) :
    interp cfg (Prog.fatal e : Prog α) st = .error e := rfl

@[simp] theorem interp_throw {α : Type} (cfg : Cfg) (e : Fatal) (st : PState) :
    interp cfg (Prog.throw e : Prog α) st = .error e := rfl

@[simp] theorem interp_get (cfg : Cfg) (st : PState) :
    interp cfg Prog.get st = .ok (st, st) := rfl

@[simp] theorem interp_next (cfg : Cfg) (st : PState) :
    interp cfg Prog.next st = .ok ((), nextState st) := rfl

@[simp] theorem interp_push (cfg : Cfg) (c : Ctx) (st : PState) :
    interp cfg (Prog.push c) st = .ok ((), { st with context := c :: st.context }) := rfl

@[simp] theorem interp_setRE (cfg : Cfg) (st : PState) :
    interp cfg Prog.setRE st = .ok ((), { st with functions_require_end := true }) := rfl

@[simp] theorem interp_tell (cfg : Cfg) (d : Diag) (st : PState) :
    interp cfg (Prog.tell d) st = .ok ((), { st with messages := st.messages ++ [d] }) := rfl

@[simp] theorem interp_activeRule (cfg : Cfg) (r : String) (st : PState) :
    interp cfg (Prog.activeRule r) st = .ok (cfg.active r, st) := rfl

@[simp] theorem interp_pop_cons (cfg : Cfg) (c : Ctx) (rest : List Ctx) (st : PState)
    (h : st.context = c :: rest) :
    interp cfg Prog.pop st = .ok ((), { st with context := rest }) := by
  show interp cfg (Prog.popCtx (Prog.ret ())) st = _
  unfold interp
  rw [h]
  rfl

/-- Interpreting a sequenced program runs the first part and feeds its
result and state into the second part. -/
@[simp] theorem interp_bind {α β : Type} (cfg : Cfg) (p : Prog α) (f : α → Prog β)
    (st : PState) :
    interp cfg (Prog.bind p f) st =
      match interp cfg p st with
      | .ok (a, st1) => interp cfg (f a) st1
      | .error e => .error e := by
  induction p generalizing st with
  | ret a => simp [Prog.bind, interp]
  | getSt k ih => simp only [Prog.bind, interp]; exact ih st st
  | nextT k ih => simp only [Prog.bind, interp]; exact ih (nextState st)
  | pushCtx c k ih => simp only [Prog.bind, interp]; exact ih _
  | popCtx k ih =>
    simp only [Prog.bind, interp]
    cases st.context with
    | nil => rfl
    | cons c rest => exact ih _
  | setReqEnd k ih => simp only [Prog.bind, interp]; exact ih _
  | emit d k ih => simp only [Prog.bind, interp]; exact ih _
  | isActive r k ih => simp only [Prog.bind, interp]; exact ih _ _
  | fatal e => simp [Prog.bind, interp]

@[simp] theorem interp_seq {α β : Type} (cfg : Cfg) (p : Prog α) (f : α → Prog β)
    (st : PState) :
    interp cfg (p >>= f) st =
      match interp cfg p st with
      | .ok (a, st1) => interp cfg (f a) st1
      | .error e => .error e := interp_bind cfg p f st

@[simp] theorem nextState_context (st : PState) : (nextState st).context = st.context := rfl

@[simp] theorem nextState_flag (st : PState) :
    (nextState st).functions_require_end = st.functions_require_end := rfl

@[simp] theorem nextState_messages (st : PState) : (nextState st).messages = st.messages := rfl

@[simp] theorem nextState_ct (st : PState) : (nextState st).ct = st.nt := rfl

@[simp] theorem nextState_nt (st : PState) : (nextState st).nt = st.nnt := rfl

/-- The `functions_require_end` flag is never cleared by any parser
computation: every primitive either leaves it alone or sets it to `True`
(the source assigns only `True` to it, lines 466 and 611). -/
theorem interp_flag_mono {α : Type} (cfg : Cfg) (p : Prog α) :
    ∀ st a st', interp cfg p st = .ok (a, st') →
      st.functions_require_end = true → st'.functions_require_end = true := by
  induction p with
  | ret a =>
    intro st a' st' h hf
    simp only [interp] at h
    cases h
    exact hf
  | getSt k ih =>
    intro st a' st' h hf
    simp only [interp] at h
    exact ih st st a' st' h hf
  | nextT k ih =>
    intro st a' st' h hf
    simp only [interp] at h
    exact ih (nextState st) a' st' h (by simpa using hf)
  | pushCtx c k ih =>
    intro st a' st' h hf
    simp only [interp] at h
    exact ih { st with context := c :: st.context } a' st' h hf
  | popCtx k ih =>
    intro st a' st' h hf
    simp only [interp] at h
    cases hc : st.context with
    | nil => rw [hc] at h; exact Except.noConfusion h
    | cons c rest => rw [hc] at h; exact ih { st with context := rest } a' st' h hf
  | setReqEnd k ih =>
    intro st a' st' h hf
    simp only [interp] at h
    exact ih { st with functions_require_end := true } a' st' h rfl
  | emit d k ih =>
    intro st a' st' h hf
    simp only [interp] at h
    exact ih { st with messages := st.messages ++ [d] } a' st' h hf
  | isActive r k ih =>
    intro st a' st' h hf
    simp only [interp] at h
    exact ih _ st a' st' h hf
  | fatal e =>
    intro st a' st' h hf
    simp only [interp] at h
    exact Except.noConfusion h

/-- Diagnostics are only ever appended: the messages of the initial state
are a prefix of the messages of any state a successful run ends in. -/
theorem interp_msgs_mono {α : Type} (cfg : Cfg) (p : Prog α) :
    ∀ st a st', interp cfg p st = .ok (a, st') →
      st.messages <+: st'.messages := by
  induction p with
  | ret a =>
    intro st a' st' h
    simp only [interp] at h
    cases h
    exact List.prefix_rfl
  | getSt k ih =>
    intro st a' st' h
    simp only [interp] at h
    exact ih st st a' st' h
  | nextT k ih =>
    intro st a' st' h
    simp only [interp] at h
    have h2 := ih (nextState st) a' st' h
    simpa using h2
  | pushCtx c k ih =>
    intro st a' st' h
    simp only [interp] at h
    exact ih { st with context := c :: st.context } a' st' h
  | popCtx k ih =>
    intro st a' st' h
    simp only [interp] at h
    cases hc : st.context with
    | nil => rw [hc] at h; exact Except.noConfusion h
    | cons c rest => rw [hc] at h; exact ih { st with context := rest } a' st' h
  | setReqEnd k ih =>
    intro st a' st' h
    simp only [interp] at h
    exact ih { st with functions_require_end := true } a' st' h
  | emit d k ih =>
    intro st a' st' h
    simp only [interp] at h
    have h2 := ih { st with messages := st.messages ++ [d] } a' st' h
    exact List.IsPrefix.trans (List.prefix_append st.messages [d]) h2
  | isActive r k ih =>
    intro st a' st' h
    simp only [interp] at h
    exact ih _ st a' st' h
  | fatal e =>
    intro st a' st' h
    simp only [interp] at h
    exact Except.noConfusion h

@[simp] theorem interp_peek (cfg : Cfg) (k : TKind) (st : PState) :
    interp cfg (peek k) st = .ok (peekSt st k none, st) := rfl

@[simp] theorem interp_peekV (cfg : Cfg) (k : TKind) (v : String) (st : PState) :
    interp cfg (peekV k v) st = .ok (peekSt st k (some v), st) := rfl

@[simp] theorem interp_peek2 (cfg : Cfg) (k : TKind) (st : PState) :
    interp cfg (peek2 k) st = .ok (peek2St st k none, st) := rfl

@[simp] theorem interp_peek_eof (cfg : Cfg) (st : PState) :
    interp cfg peek_eof st = .ok (peekEofSt st, st) := rfl

@[simp] theorem interp_in_contextP (cfg : Cfg) (kind : Ctx) (st : PState) :
    interp cfg (in_contextP kind) st = .ok (in_context kind st.context, st) := rfl

@[simp] theorem interp_peekOpIn (cfg : Cfg) (vals : List String) (st : PState) :
    interp cfg (peekOpIn vals) st =
      .ok ((match st.nt with
            | some t => t.kind == .OPERATOR && vals.contains t.value
            | none => false), st) := rfl

@[simp] theorem interp_peek_eos (cfg : Cfg) (st : PState) :
    interp cfg peek_eos st =
      .ok (peekSt st .SEMICOLON none || peekSt st .COMMA none || peekSt st .NEWLINE none, st) := rfl

theorem interp_curTok (cfg : Cfg) (st : PState) (t : Token) (h : st.ct = some t) :
    interp cfg curTok st = .ok (t, st) := by
  unfold curTok
  simp only [bind_is_bind, interp_bind, interp_get]
  rw [h]
  rfl

/-- A `match` with the expected kind (and value) succeeds and just advances
the lookahead window. -/
theorem interp_matchKV_ok (cfg : Cfg) (k : TKind) (v : Option String) (st : PState)
    (t : Token) (h : st.nt = some t) (hk : t.kind = k)
    (hv : ∀ x, v = some x → t.value = x) :
    interp cfg (matchKV k v) st = .ok ((), nextState st) := by
  have hct : (nextState st).ct = some t := by simpa using h
  unfold matchKV
  simp only [bind_is_bind, interp_bind, interp_next, interp_get]
  rw [hct]
  cases v with
  | none => simp [hk]
  | some x => simp [hk, hv x rfl]

theorem interp_matchT_ok (cfg : Cfg) (k : TKind) (st : PState)
    (t : Token) (h : st.nt = some t) (hk : t.kind = k) :
    interp cfg (matchT k) st = .ok ((), nextState st) :=
  interp_matchKV_ok cfg k none st t h hk (by intro x hx; cases hx)

theorem interp_matchTV_ok (cfg : Cfg) (k : TKind) (v : String) (st : PState)
    (t : Token) (h : st.nt = some t) (hk : t.kind = k) (hv : t.value = v) :
    interp cfg (matchTV k v) st = .ok ((), nextState st) :=
  interp_matchKV_ok cfg k (some v) st t h hk (by intro x hx; cases hx; exact hv)

/-- Inversion: a successful `match` tells us what the lookahead token was. -/
theorem interp_matchKV_ok_inv (cfg : Cfg) (k : TKind) (v : Option String)
    (st : PState) (r : Unit) (st' : PState)
    (h : interp cfg (matchKV k v) st = .ok (r, st')) :
    ∃ t, st.nt = some t ∧ t.kind = k ∧ (∀ x, v = some x → t.value = x) ∧
      st' = nextState st := by
  unfold matchKV at h
  simp only [bind_is_bind, interp_bind, interp_next, interp_get] at h
  cases hct : (nextState st).ct with
  | none =>
    rw [hct] at h
    simp only [interp_throw] at h
    exact Except.noConfusion h
  | some t =>
    rw [hct] at h
    refine ⟨t, by simpa using hct, ?_⟩
    by_cases hk : t.kind = k
    · simp only [hk, ne_eq, not_true_eq_false, if_false] at h
      cases v with
      | none =>
        simp only [interp_pure] at h
        cases h
        exact ⟨hk, (by intro x hx; cases hx), rfl⟩
      | some x =>
        by_cases hx : t.value = x
        · simp only [hx, ne_eq, not_true_eq_false, if_false, interp_pure] at h
          cases h
          exact ⟨hk, (by intro y hy; cases hy; exact hx), rfl⟩
        · simp only [ne_eq, hx, not_false_eq_true, if_true, interp_throw] at h
          exact Except.noConfusion h
    · simp only [ne_eq, hk, not_false_eq_true, if_true] at h
      cases v with
      | none =>
        simp only [interp_throw] at h
        exact Except.noConfusion h
      | some x =>
        simp only [interp_throw] at h
        exact Except.noConfusion h

/-- C10: `parse_identifier` accepts the keyword token `end`, whatever
`allow_void` is, and returns it as an `Identifier` node, consuming one
token. -/
theorem c10_parse_identifier_accepts_end
    (cfg : Cfg) (allow_void : Bool) (st : PState) (t : Token)
    (h : st.nt = some t) (hk : t.kind = .KEYWORD) (hv : t.value = "end") :
    interp cfg (parse_identifier allow_void) st = .ok (.identifier t, nextState st) := by
  have hop : peekSt st .OPERATOR (some "~") = false := by
    simp [peekSt, h, hk]
  have hend : peekSt st .KEYWORD (some "end") = true := by
    simp [peekSt, h, hk, hv]
  unfold parse_identifier
  simp only [bind_is_bind, interp_bind, interp_peekV, hop, hend, Bool.false_and,
    Bool.false_eq_true, if_false, if_true,
    interp_matchTV_ok cfg .KEYWORD "end" st t h hk hv,
    interp_curTok cfg (nextState st) t (by simpa using h), interp_pure]

theorem c10_witness :
    interp quietCfg (parse_identifier false) (stateOf c10Toks) =
      .ok (.identifier (tok .KEYWORD "end" 0), nextState (stateOf c10Toks)) :=
  c10_parse_identifier_accepts_end quietCfg false (stateOf c10Toks)
    (tok .KEYWORD "end" 0) rfl rfl rfl

/-- C4: `in_context(kind)` is `True` exactly when the stack splits as
`pre ++ kind :: post` with no frame of `pre` equal to `kind`, `function` or
`classdef`; consequently a `loop` frame below a `function` frame (with only
transparent frames above it) is invisible, which makes a nested function's
`break` count as outside any loop. -/
theorem c4_in_context_scan :
    (∀ (kind : Ctx) (stack : List Ctx),
        in_context kind stack = true ↔
          ∃ pre post, stack = pre ++ kind :: post ∧
            ∀ x ∈ pre, x ≠ kind ∧ x ≠ Ctx.funC ∧ x ≠ Ctx.clsC) ∧
    (∀ (pre rest : List Ctx),
        (∀ x ∈ pre, x ≠ Ctx.funC ∧ x ≠ Ctx.clsC ∧ x ≠ Ctx.loopC) →
        in_context .loopC (pre ++ Ctx.funC :: Ctx.loopC :: rest) = false) := by
  have main : ∀ (kind : Ctx) (stack : List Ctx),
      in_context kind stack = true ↔
        ∃ pre post, stack = pre ++ kind :: post ∧
          ∀ x ∈ pre, x ≠ kind ∧ x ≠ Ctx.funC ∧ x ≠ Ctx.clsC := by
    intro kind stack
    induction stack with
    | nil =>
      simp only [in_context, Bool.false_eq_true, false_iff]
      rintro ⟨pre, post, heq, -⟩
      exact List.noConfusion (List.append_eq_nil.mp heq.symm).2
    | cons k rest ih =>
      by_cases hk : kind = k
      · rw [show in_context kind (k :: rest) = true from by simp [in_context, hk]]
        simp only [true_iff]
        exact ⟨[], rest, (by rw [hk]; rfl), (by intro x hx; cases hx)⟩
      · by_cases hfc : k = Ctx.funC ∨ k = Ctx.clsC
        · rw [show in_context kind (k :: rest) = false from by simp [in_context, hk, hfc]]
          simp only [Bool.false_eq_true, false_iff]
          rintro ⟨pre, post, heq, hall⟩
          cases pre with
          | nil =>
            simp only [List.nil_append, List.cons.injEq] at heq
            exact hk heq.1.symm
          | cons p pre' =>
            simp only [List.cons_append, List.cons.injEq] at heq
            have hp := hall p (by simp)
            rcases hfc with h1 | h1
            · exact hp.2.1 (heq.1.symm.trans h1)
            · exact hp.2.2 (heq.1.symm.trans h1)
        · rw [show in_context kind (k :: rest) = in_context kind rest from by
            simp [in_context, hk, hfc]]
          rw [ih]
          push_neg at hfc
          constructor
          · rintro ⟨pre, post, heq, hall⟩
            refine ⟨k :: pre, post, by rw [heq]; rfl, ?_⟩
            intro x hx
            rcases List.mem_cons.mp hx with rfl | hx2
            · exact ⟨fun hkk => hk hkk.symm, hfc.1, hfc.2⟩
            · exact hall x hx2
          · rintro ⟨pre, post, heq, hall⟩
            cases pre with
            | nil =>
              simp only [List.nil_append, List.cons.injEq] at heq
              exact absurd heq.1.symm hk
            | cons p pre' =>
              simp only [List.cons_append, List.cons.injEq] at heq
              exact ⟨pre', post, heq.2, fun x hx => hall x (List.mem_cons_of_mem p hx)⟩
  refine ⟨main, ?_⟩
  intro pre rest hall
  induction pre with
  | nil => simp [in_context]
  | cons p pre' ih =>
    have hp := hall p (by simp)
    have hne : ¬ (Ctx.loopC = p) := fun h => hp.2.2 h.symm
    rw [show (p :: pre') ++ Ctx.funC :: Ctx.loopC :: rest
          = p :: (pre' ++ Ctx.funC :: Ctx.loopC :: rest) from rfl]
    rw [show in_context Ctx.loopC (p :: (pre' ++ Ctx.funC :: Ctx.loopC :: rest))
          = in_context Ctx.loopC (pre' ++ Ctx.funC :: Ctx.loopC :: rest) from by
        simp [in_context, hne, hp.1, hp.2.1]]
    exact ih (fun x hx => hall x (List.mem_cons_of_mem p hx))

theorem c4_witness :
    in_context .loopC [Ctx.ifC, Ctx.funC, Ctx.loopC] = false :=
  c4_in_context_scan.2 [Ctx.ifC] [] (by decide)

/-- C3: `1:10` parses to a range node with first point 1 and last point 10
and no stride recorded, and `1:2:10` parses to a range node with first
point 1, stride 2 and last point 10. -/
theorem c3_range_forms :
    (runVal quietCfg (parse_expression 20) (stateOf c3aToks) =
        some (.range_expr (.number (tok .NUMBER "1" 0)) (tok .COLON "" 1)
              (.number (tok .NUMBER "10" 2)) none)) ∧
    (runVal quietCfg (parse_expression 20) (stateOf c3bToks) =
        some (.range_expr (.number (tok .NUMBER "1" 0)) (tok .COLON "" 1)
              (.number (tok .NUMBER "10" 4))
              (some (tok .COLON "" 3, .number (tok .NUMBER "2" 2))))) :=
  ⟨rfl, rfl⟩

/-- C6 counterexample: the claim says that for exactly two chained
relational operators (for example `a < b < c`) no warning is emitted, but
the parser does emit the chained-relation warning there (at the second
operator): the counter starts at 1 and counts operands, so it exceeds 2
already on the second operator. -/
theorem c6_counterexample :
    runMsgs quietCfg (parse_expression 20) (stateOf c6abcToks) =
      some [⟨some 3, "chained relation does not work the way you think it does", .warn⟩] :=
  rfl

/-- C6 (amended): while parsing one relational level, the non-fatal
chained-relation warning is emitted on the second and every further
relational operator of a chain (i.e. whenever more than two operands are
chained): a single relational operator `a < b` emits none, `a < b < c`
emits one (at the second operator), `a < b < c < d` emits two; the chain
folds left-associatively regardless. -/
theorem c6_relational_chain_warning :
    (runMsgs quietCfg (parse_expression 20) (stateOf c6abToks) = some []) ∧
    (runVal quietCfg (parse_expression 20) (stateOf c6abcToks) =
      some (.binary_op 8 (tok .OPERATOR "<" 3)
            (.binary_op 8 (tok .OPERATOR "<" 1)
              (.identifier (tok .IDENTIFIER "a" 0))
              (.identifier (tok .IDENTIFIER "b" 2)))
            (.identifier (tok .IDENTIFIER "c" 4)))) ∧
    (runMsgs quietCfg (parse_expression 20) (stateOf c6abcToks) =
      some [⟨some 3, "chained relation does not work the way you think it does", .warn⟩]) ∧
    (runMsgs quietCfg (parse_expression 20) (stateOf c6abcdToks) =
      some [⟨some 3, "chained relation does not work the way you think it does", .warn⟩,
            ⟨some 5, "chained relation does not work the way you think it does", .warn⟩]) :=
  ⟨rfl, rfl, rfl, rfl⟩

/-- C7: in a validation block, a parenthesized dimension list with exactly
one entry yields the non-fatal at-least-two-dimensions diagnostic and no
dimension constraint is recorded while the block parse completes; a list
with two entries is recorded as the constraint; a list element that is
neither a number nor `:` is a fatal error. -/
theorem c7_validation_dimension_rules :
    (runVal quietCfg (parse_validation_block 30) (stateOf c7aToks) =
      some (MBlock.mk (tok .KEYWORD "arguments" 0) []
        [MItem.constraint (MConstraint.mk (.identifier (tok .IDENTIFIER "x" 2)) []
          (some (.identifier (tok .IDENTIFIER "double" 6))) [] none)])) ∧
    (runMsgs quietCfg (parse_validation_block 30) (stateOf c7aToks) =
      some [⟨some 5, "in MATLAB dimension constraints must contain at least two dimensions",
             .softErr⟩]) ∧
    (runVal quietCfg (parse_validation_block 30) (stateOf c7bToks) =
      some (MBlock.mk (tok .KEYWORD "arguments" 0) []
        [MItem.constraint (MConstraint.mk (.identifier (tok .IDENTIFIER "x" 2))
          [tok .NUMBER "1" 4, tok .NUMBER "2" 6]
          (some (.identifier (tok .IDENTIFIER "double" 8))) [] none)])) ∧
    (runMsgs quietCfg (parse_validation_block 30) (stateOf c7bToks) = some []) ∧
    (runErr quietCfg (parse_validation_block 30) (stateOf c7cToks) =
      some (.err (some 4) "dimension validation may contain only integral numbers or :")) :=
  ⟨rfl, rfl, rfl, rfl, rfl⟩

/-- Inversion of a successful sequenced run: the first part succeeded and
the continuation ran from its final state. -/
theorem interp_bind_ok_inv {α β : Type} (cfg : Cfg) (p : Prog α) (f : α → Prog β)
    (st : PState) (b : β) (st' : PState)
    (h : interp cfg (Prog.bind p f) st = .ok (b, st')) :
    ∃ a st1, interp cfg p st = .ok (a, st1) ∧ interp cfg (f a) st1 = .ok (b, st') := by
  rw [interp_bind] at h
  cases hp : interp cfg p st with
  | error e => rw [hp] at h; exact Except.noConfusion h
  | ok q =>
    obtain ⟨a, st1⟩ := q
    rw [hp] at h
    exact ⟨a, st1, rfl, h⟩

/-- C8: a successful parse of a `break` (resp. `continue`) statement always
returns the corresponding statement node, and when no `loop` frame is
visible on the context stack the non-fatal must-appear-inside-loop
diagnostic is among the recorded messages of the final state; concretely, a
top-level `break` (resp. `continue`) parses successfully with exactly that
diagnostic and no fatal error. -/
theorem c8_break_continue_outside_loop :
    (∀ (cfg : Cfg) (fuel : Nat) (st : PState) (s : MStmt) (st' : PState),
       interp cfg (parse_break_statement fuel) st = .ok (s, st') →
       ∃ t, st.nt = some t ∧ s = .break_stmt t ∧
         (in_context .loopC st.context = false →
            (⟨some t.loc, "break must appear inside loop", .softErr⟩ : Diag) ∈ st'.messages)) ∧
    (∀ (cfg : Cfg) (fuel : Nat) (st : PState) (s : MStmt) (st' : PState),
       interp cfg (parse_continue_statement fuel) st = .ok (s, st') →
       ∃ t, st.nt = some t ∧ s = .continue_stmt t ∧
         (in_context .loopC st.context = false →
            (⟨some t.loc, "continue must appear inside loop", .softErr⟩ : Diag) ∈ st'.messages)) ∧
    (runVal quietCfg (parse_statement 20) (stateOf c8Toks) =
       some (.break_stmt (tok .KEYWORD "break" 0))) ∧
    (runMsgs quietCfg (parse_statement 20) (stateOf c8Toks) =
       some [⟨some 0, "break must appear inside loop", .softErr⟩]) ∧
    (runVal quietCfg (parse_statement 20) (stateOf c8cToks) =
       some (.continue_stmt (tok .KEYWORD "continue" 0))) ∧
    (runMsgs quietCfg (parse_statement 20) (stateOf c8cToks) =
       some [⟨some 0, "continue must appear inside loop", .softErr⟩]) := by
  refine ⟨?_, ?_, rfl, rfl, rfl, rfl⟩
  · intro cfg fuel st s st' h
    unfold parse_break_statement at h
    simp only [bind_is_bind] at h
    obtain ⟨u, st1, hm, h⟩ := interp_bind_ok_inv cfg _ _ _ _ _ h
    obtain ⟨t, hnt, hkind, hval, hst1⟩ := interp_matchKV_ok_inv cfg _ _ st u st1 hm
    subst hst1
    obtain ⟨tv, st2, hcur, h⟩ := interp_bind_ok_inv cfg _ _ _ _ _ h
    have h2 := (interp_curTok cfg (nextState st) t (by simpa using hnt)).symm.trans hcur
    cases h2
    obtain ⟨b, st3, hctx, h⟩ := interp_bind_ok_inv cfg _ _ _ _ _ h
    rw [interp_in_contextP] at hctx
    cases hctx
    refine ⟨t, hnt, ?_⟩
    rw [nextState_context] at h
    cases hloop : in_context .loopC st.context with
    | true =>
      rw [hloop] at h
      simp only [Bool.not_true, Bool.false_eq_true, if_false] at h
      obtain ⟨v1, st4, hskip, h⟩ := interp_bind_ok_inv cfg _ _ _ _ _ h
      obtain ⟨v2, st5, hme, h⟩ := interp_bind_ok_inv cfg _ _ _ _ _ h
      simp only [interp_pure] at h
      cases h
      exact ⟨rfl, by intro hfalse; cases hfalse⟩
    | false =>
      rw [hloop] at h
      simp only [Bool.not_false, if_true] at h
      obtain ⟨v1, st4, hemit, h⟩ := interp_bind_ok_inv cfg _ _ _ _ _ h
      obtain ⟨v2, st5, hme, h⟩ := interp_bind_ok_inv cfg _ _ _ _ _ h
      simp only [interp_pure] at h
      cases h
      refine ⟨rfl, fun _ => ?_⟩
      have hd : (⟨some t.loc, "break must appear inside loop", .softErr⟩ : Diag)
          ∈ st4.messages := by
        have : st4 = { nextState st with messages := (nextState st).messages ++
            [⟨some t.loc, "break must appear inside loop", .softErr⟩] } := by
          have := (interp_tell cfg
            ⟨some t.loc, "break must appear inside loop", .softErr⟩ (nextState st)).symm.trans hemit
          cases this
          rfl
        rw [this]
        simp
      have hpre := interp_msgs_mono cfg (match_eos fuel "" false) _ v2 st' hme
      exact hpre.subset hd
  · intro cfg fuel st s st' h
    unfold parse_continue_statement at h
    simp only [bind_is_bind] at h
    obtain ⟨u, st1, hm, h⟩ := interp_bind_ok_inv cfg _ _ _ _ _ h
    obtain ⟨t, hnt, hkind, hval, hst1⟩ := interp_matchKV_ok_inv cfg _ _ st u st1 hm
    subst hst1
    obtain ⟨tv, st2, hcur, h⟩ := interp_bind_ok_inv cfg _ _ _ _ _ h
    have h2 := (interp_curTok cfg (nextState st) t (by simpa using hnt)).symm.trans hcur
    cases h2
    obtain ⟨b, st3, hctx, h⟩ := interp_bind_ok_inv cfg _ _ _ _ _ h
    rw [interp_in_contextP] at hctx
    cases hctx
    refine ⟨t, hnt, ?_⟩
    rw [nextState_context] at h
    cases hloop : in_context .loopC st.context with
    | true =>
      rw [hloop] at h
      simp only [Bool.not_true, Bool.false_eq_true, if_false] at h
      obtain ⟨v1, st4, hskip, h⟩ := interp_bind_ok_inv cfg _ _ _ _ _ h
      obtain ⟨v2, st5, hme, h⟩ := interp_bind_ok_inv cfg _ _ _ _ _ h
      simp only [interp_pure] at h
      cases h
      exact ⟨rfl, by intro hfalse; cases hfalse⟩
    | false =>
      rw [hloop] at h
      simp only [Bool.not_false, if_true] at h
      obtain ⟨v1, st4, hemit, h⟩ := interp_bind_ok_inv cfg _ _ _ _ _ h
      obtain ⟨v2, st5, hme, h⟩ := interp_bind_ok_inv cfg _ _ _ _ _ h
      simp only [interp_pure] at h
      cases h
      refine ⟨rfl, fun _ => ?_⟩
      have hd : (⟨some t.loc, "continue must appear inside loop", .softErr⟩ : Diag)
          ∈ st4.messages := by
        have : st4 = { nextState st with messages := (nextState st).messages ++
            [⟨some t.loc, "continue must appear inside loop", .softErr⟩] } := by
          have := (interp_tell cfg
            ⟨some t.loc, "continue must appear inside loop", .softErr⟩ (nextState st)).symm.trans hemit
          cases this
          rfl
        rw [this]
        simp
      have hpre := interp_msgs_mono cfg (match_eos fuel "" false) _ v2 st' hme
      exact hpre.subset hd

theorem c8_witness :
    ∃ s st', interp quietCfg (parse_break_statement 19) (stateOf c8Toks) = .ok (s, st') ∧
      ∃ t, (stateOf c8Toks).nt = some t ∧ s = .break_stmt t ∧
        (in_context .loopC (stateOf c8Toks).context = false →
          (⟨some t.loc, "break must appear inside loop", .softErr⟩ : Diag) ∈ st'.messages) := by
  refine ⟨_, _, rfl, ?_⟩
  exact c8_break_continue_outside_loop.1 quietCfg 19 (stateOf c8Toks) _ _ rfl

/-- C5: in the assignment/command/naked disambiguation of
`parse_statement`, when the leading expression has been parsed and the next
token is an assignment operator, a non-Name left-hand side is a fatal parse
error at the assignment token's location, and otherwise a successful parse
yields a simple-assignment statement with that Name as left-hand side. -/
theorem c5_simple_assignment_lhs :
    (∀ (cfg : Cfg) (n : Nat) (st : PState) (e : MExpr) (st1 : PState) (t_eq : Token),
       peekSt st .KEYWORD none = false →
       peekSt st .BANG none = false →
       peekSt st .A_BRA none = false →
       interp cfg (parse_expression n) st = .ok (e, st1) →
       st1.nt = some t_eq → t_eq.kind = .ASSIGNMENT →
       isName e = false →
       interp cfg (parse_statement (n+1)) st =
         .error (.err (some t_eq.loc)
           ("left-hand side of assignment must be a Name, found "
             ++ className e ++ " instead"))) ∧
    (∀ (cfg : Cfg) (n : Nat) (st : PState) (e : MExpr) (st1 : PState) (t_eq : Token)
       (s : MStmt) (st' : PState),
       peekSt st .KEYWORD none = false →
       peekSt st .BANG none = false →
       peekSt st .A_BRA none = false →
       interp cfg (parse_expression n) st = .ok (e, st1) →
       st1.nt = some t_eq → t_eq.kind = .ASSIGNMENT →
       isName e = true →
       interp cfg (parse_statement (n+1)) st = .ok (s, st') →
       ∃ rhs, s = .simple_assignment t_eq e rhs) := by
  constructor
  · intro cfg n st e st1 t_eq hkw hbang habra hpe hnt1 hak hname
    have hassign : peekSt st1 .ASSIGNMENT none = true := by
      simp [peekSt, hnt1, hak]
    unfold parse_statement
    simp only [bind_is_bind, interp_bind, interp_peek, hkw, hbang, habra,
      Bool.false_eq_true, if_false]
    rw [hpe]
    dsimp only
    simp only [bind_is_bind, interp_bind, interp_peek, hassign, if_true]
    rw [interp_matchT_ok cfg .ASSIGNMENT st1 t_eq hnt1 hak]
    dsimp only
    rw [interp_curTok cfg (nextState st1) t_eq (by simpa using hnt1)]
    dsimp only
    simp only [hname, Bool.not_false, if_true, interp_throw]
  · intro cfg n st e st1 t_eq s st' hkw hbang habra hpe hnt1 hak hname h
    have hassign : peekSt st1 .ASSIGNMENT none = true := by
      simp [peekSt, hnt1, hak]
    unfold parse_statement at h
    simp only [bind_is_bind, interp_bind, interp_peek, hkw, hbang, habra,
      Bool.false_eq_true, if_false] at h
    rw [hpe] at h
    dsimp only at h
    simp only [bind_is_bind, interp_bind, interp_peek, hassign, if_true] at h
    rw [interp_matchT_ok cfg .ASSIGNMENT st1 t_eq hnt1 hak] at h
    dsimp only at h
    rw [interp_curTok cfg (nextState st1) t_eq (by simpa using hnt1)] at h
    dsimp only at h
    simp only [hname, Bool.not_true, Bool.false_eq_true, if_false] at h
    obtain ⟨rhs, stA, hrhs, h⟩ := interp_bind_ok_inv cfg _ _ _ _ _ h
    obtain ⟨bA, stB, hact, h⟩ := interp_bind_ok_inv cfg _ _ _ _ _ h
    have key : ∀ (Y : Prog Unit) (stB : PState),
        interp cfg (Prog.bind Y fun _ => Prog.bind (match_eos n ";" false) fun _ =>
          pure (MStmt.simple_assignment t_eq e rhs)) stB = .ok (s, st') →
        s = MStmt.simple_assignment t_eq e rhs := by
      intro Y stB2 hY
      obtain ⟨u1, stC, h1, hY⟩ := interp_bind_ok_inv cfg _ _ _ _ _ hY
      obtain ⟨u2, stD, h2, hY⟩ := interp_bind_ok_inv cfg _ _ _ _ _ hY
      simp only [interp_pure] at hY
      cases hY
      rfl
    cases bA with
    | true =>
      rw [if_pos rfl] at h
      exact ⟨rhs, key _ _ h⟩
    | false =>
      simp only [Bool.false_eq_true, if_false] at h
      exact ⟨rhs, key _ _ h⟩

theorem c5_witness :
    (∃ e st1, interp quietCfg (parse_expression 19) (stateOf c5bToks) = .ok (e, st1) ∧
       isName e = false ∧
       interp quietCfg (parse_statement 20) (stateOf c5bToks) =
         .error (.err (some 1)
           ("left-hand side of assignment must be a Name, found "
             ++ className e ++ " instead"))) := by
  refine ⟨_, _, rfl, rfl, ?_⟩
  exact c5_simple_assignment_lhs.1 quietCfg 19 (stateOf c5bToks) _ _
    (tok .ASSIGNMENT "" 1) rfl rfl rfl rfl rfl rfl rfl

/-- The command-form argument loop only ever appends `Char_Array_Literal`
nodes to its accumulator. -/
theorem parse_command_args_chars (cfg : Cfg) :
    ∀ (f : Nat) (acc : List MExpr) (st : PState) (r : List MExpr) (st' : PState),
      interp cfg (parse_command_args f acc) st = .ok (r, st') →
      (∀ a ∈ acc, isCharArrayLit a = true) →
      ∀ a ∈ r, isCharArrayLit a = true := by
  intro f
  induction f with
  | zero =>
    intro acc st r st' h _
    unfold parse_command_args at h
    exact Except.noConfusion h
  | succ n ih =>
    intro acc st r st' h hacc
    unfold parse_command_args at h
    simp only [bind_is_bind, interp_bind, interp_peek] at h
    cases hc : peekSt st .CARRAY none with
    | false =>
      rw [hc] at h
      simp only [Bool.false_eq_true, if_false, interp_pure] at h
      cases h
      exact hacc
    | true =>
      rw [hc] at h
      simp only [if_true] at h
      obtain ⟨u, st1, hm, h⟩ := interp_bind_ok_inv cfg _ _ _ _ _ h
      obtain ⟨tv, st2, hcur, h⟩ := interp_bind_ok_inv cfg _ _ _ _ _ h
      refine ih (acc ++ [.char_array tv]) st2 r st' h ?_
      intro a ha
      rcases List.mem_append.mp ha with ha1 | ha2
      · exact hacc a ha1
      · rw [List.mem_singleton.mp ha2]; rfl

/-- C9: the escape-variant call built for `!cmd` holds the BANG token as an
`Identifier` that renders as "system" and exactly one `Char_Array_Literal`
argument; a successful command-form statement holds an Identifier/Selection
callee and only `Char_Array_Literal` arguments; and a command-form
continuation after a non-Identifier/Selection expression is a fatal
error. -/
theorem c9_command_escape_invariants :
    (∀ (cfg : Cfg) (n : Nat) (st : PState) (t : Token) (s : MStmt) (st' : PState),
       st.nt = some t → t.kind = .BANG →
       interp cfg (parse_statement (n+1)) st = .ok (s, st') →
       s = .naked (.function_call (.identifier t) [.char_array t] .escape) ∧
       identStr (.identifier t) = "system" ∧
       (∀ a ∈ [MExpr.char_array t], isCharArrayLit a = true) ∧
       [MExpr.char_array t].length = 1) ∧
    (∀ (cfg : Cfg) (n : Nat) (st : PState) (e : MExpr) (st1 : PState) (ca : Token)
       (s : MStmt) (st' : PState),
       peekSt st .KEYWORD none = false →
       peekSt st .BANG none = false →
       peekSt st .A_BRA none = false →
       interp cfg (parse_expression n) st = .ok (e, st1) →
       peekSt st1 .ASSIGNMENT none = false →
       st1.nt = some ca → ca.kind = .CARRAY →
       interp cfg (parse_statement (n+1)) st = .ok (s, st') →
       isIdentOrSelection e = true ∧
       ∃ args, s = .naked (.function_call e args .command) ∧
         ∀ a ∈ args, isCharArrayLit a = true) ∧
    (∀ (cfg : Cfg) (n : Nat) (st : PState) (e : MExpr) (st1 : PState) (ca : Token),
       peekSt st .KEYWORD none = false →
       peekSt st .BANG none = false →
       peekSt st .A_BRA none = false →
       interp cfg (parse_expression n) st = .ok (e, st1) →
       peekSt st1 .ASSIGNMENT none = false →
       st1.nt = some ca → ca.kind = .CARRAY →
       isIdentOrSelection e = false →
       interp cfg (parse_statement (n+1)) st =
         .error (.err (st1.ct.map (fun u => u.loc))
           ("command form requires a simple (dotted) identifier; found "
             ++ className e ++ " instead"))) := by
  refine ⟨?_, ?_, ?_⟩
  · intro cfg n st t s st' hnt hk h
    have hkw : peekSt st .KEYWORD none = false := by
      simp +decide [peekSt, hnt, hk]
    have hbang : peekSt st .BANG none = true := by
      simp [peekSt, hnt, hk]
    unfold parse_statement at h
    simp only [bind_is_bind, interp_bind, interp_peek, hkw, Bool.false_eq_true,
      if_false, hbang, if_true] at h
    rw [interp_matchT_ok cfg .BANG st t hnt hk] at h
    dsimp only at h
    rw [interp_curTok cfg (nextState st) t (by simpa using hnt)] at h
    dsimp only at h
    cases hmn : interp cfg (matchT .NEWLINE) (nextState st) with
    | error e =>
      rw [hmn] at h
      exact Except.noConfusion h
    | ok q =>
      obtain ⟨u, st2⟩ := q
      rw [hmn] at h
      simp only [interp_pure] at h
      cases h
      exact ⟨rfl, by simp [identStr, hk],
        (by intro a ha; rw [List.mem_singleton.mp ha]; rfl), rfl⟩
  · intro cfg n st e st1 ca s st' hkw hbang habra hpe hassign hnt1 hck h
    have hcar : peekSt st1 .CARRAY none = true := by
      simp [peekSt, hnt1, hck]
    unfold parse_statement at h
    simp only [bind_is_bind, interp_bind, interp_peek, hkw, hbang, habra,
      Bool.false_eq_true, if_false] at h
    rw [hpe] at h
    dsimp only at h
    simp only [bind_is_bind, interp_bind, interp_peek, hassign,
      Bool.false_eq_true, if_false, hcar, if_true] at h
    cases hio : isIdentOrSelection e with
    | false =>
      rw [hio] at h
      simp only [Bool.not_false, if_true, bind_is_bind, interp_bind, interp_get,
        interp_throw] at h
      exact Except.noConfusion h
    | true =>
      rw [hio] at h
      simp only [Bool.not_true, Bool.false_eq_true, if_false] at h
      obtain ⟨args, stA, hargs, h⟩ := interp_bind_ok_inv cfg _ _ _ _ _ h
      obtain ⟨u, stB, hme, h⟩ := interp_bind_ok_inv cfg _ _ _ _ _ h
      simp only [interp_pure] at h
      cases h
      exact ⟨rfl, args, rfl,
        parse_command_args_chars cfg n [] st1 args stA hargs (by intro a ha; cases ha)⟩
  · intro cfg n st e st1 ca hkw hbang habra hpe hassign hnt1 hck hio
    have hcar : peekSt st1 .CARRAY none = true := by
      simp [peekSt, hnt1, hck]
    unfold parse_statement
    simp only [bind_is_bind, interp_bind, interp_peek, hkw, hbang, habra,
      Bool.false_eq_true, if_false]
    rw [hpe]
    dsimp only
    simp only [bind_is_bind, interp_bind, interp_peek, hassign,
      Bool.false_eq_true, if_false, hcar, if_true, hio, Bool.not_false,
      interp_get, interp_throw]

theorem c9_witness :
    ∃ s st', interp quietCfg (parse_statement 20) (stateOf c9aToks) = .ok (s, st') ∧
      s = .naked (.function_call (.identifier (tok .BANG "ls -l" 0))
            [.char_array (tok .BANG "ls -l" 0)] .escape) ∧
      identStr (.identifier (tok .BANG "ls -l" 0)) = "system" := by
  refine ⟨_, _, rfl, ?_⟩
  have h := c9_command_escape_invariants.1 quietCfg 19 (stateOf c9aToks)
    (tok .BANG "ls -l" 0) _ _ rfl rfl rfl
  exact ⟨h.1, h.2.1⟩

/-- The unary run consumed directly after a power operator consists only of
`-`, `+`, `~` operator tokens, and it is greedy: the lookahead after it is
not such a token. -/
theorem parse_punary_chain_spec (cfg : Cfg) :
    ∀ (f : Nat) (st : PState) (us : List Token) (st' : PState),
      interp cfg (parse_punary_chain f) st = .ok (us, st') →
      (∀ u ∈ us, u.kind = .OPERATOR ∧ (u.value = "-" ∨ u.value = "+" ∨ u.value = "~")) ∧
      (match st'.nt with
       | some u => ¬(u.kind = .OPERATOR ∧ (u.value = "-" ∨ u.value = "+" ∨ u.value = "~"))
       | none => True) := by
  intro f
  induction f with
  | zero =>
    intro st us st' h
    unfold parse_punary_chain at h
    exact Except.noConfusion h
  | succ n ih =>
    intro st us st' h
    unfold parse_punary_chain at h
    simp only [bind_is_bind, interp_bind, interp_peekOpIn] at h
    cases hnt : st.nt with
    | none =>
      rw [hnt] at h
      simp only [Bool.false_eq_true, if_false, interp_pure] at h
      cases h
      constructor
      · intro u hu; cases hu
      · rw [hnt]; trivial
    | some u =>
      rw [hnt] at h
      dsimp only at h
      cases hcond : (u.kind == TKind.OPERATOR && List.contains ["-", "+", "~"] u.value) with
      | false =>
        rw [hcond] at h
        simp only [Bool.false_eq_true, if_false, interp_pure] at h
        cases h
        constructor
        · intro x hx; cases hx
        · rw [hnt]
          rintro ⟨h1, h2⟩
          rw [h1] at hcond
          rcases h2 with h2 | h2 | h2 <;> rw [h2] at hcond <;> exact absurd hcond (by decide)
      | true =>
        rw [hcond] at h
        simp only [if_true] at h
        have hkind : u.kind = .OPERATOR := by
          have h1 := (Bool.and_eq_true .. ▸ hcond).1
          simpa using h1
        have hval : u.value = "-" ∨ u.value = "+" ∨ u.value = "~" := by
          have h2 := (Bool.and_eq_true .. ▸ hcond).2
          simpa [List.contains] using h2
        obtain ⟨u1, stm, hm, h⟩ := interp_bind_ok_inv cfg _ _ _ _ _ h
        have hm2 := (interp_matchT_ok cfg .OPERATOR st u hnt hkind).symm.trans hm
        cases hm2
        obtain ⟨tv, stc, hc, h⟩ := interp_bind_ok_inv cfg _ _ _ _ _ h
        have hc2 := (interp_curTok cfg (nextState st) u (by simpa using hnt)).symm.trans hc
        cases hc2
        obtain ⟨rest, st2, hrec, h⟩ := interp_bind_ok_inv cfg _ _ _ _ _ h
        simp only [interp_pure] at h
        cases h
        obtain ⟨ihall, ihstop⟩ := ih (nextState st) rest st' hrec
        refine ⟨?_, ihstop⟩
        intro x hx
        rcases List.mem_cons.mp hx with rfl | hx2
        · exact ⟨hkind, hval⟩
        · exact ihall x hx2

/-- C2: right after consuming a power operator, `parse_precedence_2`
greedily consumes the run of unary prefix tokens and applies it,
innermost first (a right fold), to the primary operand to the right of the
power operator before building the binary power node; the loop then folds
further power operators left-associatively.  Concretely, `2^-3^2` parses as
`(2 ^ (-3)) ^ 2`, with the unary minus attached (at precedence level 3)
only to the literal `3`. -/
theorem c2_power_unary_chain :
    (∀ (cfg : Cfg) (j : Nat) (st st1 st2 st3 : PState) (e1 e2 : MExpr)
       (t : Token) (us : List Token),
       interp cfg (parse_precedence_1 (j+2)) st = .ok (e1, st1) →
       st1.nt = some t → t.kind = .OPERATOR → (t.value = "^" ∨ t.value = ".^") →
       interp cfg (parse_punary_chain (j+1)) (nextState st1) = .ok (us, st2) →
       interp cfg (parse_precedence_1 (j+1)) st2 = .ok (e2, st3) →
       (match st3.nt with
        | some u => u.kind == TKind.OPERATOR &&
            List.contains ["^", ".^", squote, dotquote] u.value
        | none => false) = false →
       interp cfg (parse_precedence_2 (j+3)) st =
         .ok (.binary_op 2 t e1 (applyUnaryChain us e2), st3)) ∧
    (∀ (cfg : Cfg) (f : Nat) (st : PState) (us : List Token) (st' : PState),
       interp cfg (parse_punary_chain f) st = .ok (us, st') →
       (∀ u ∈ us, u.kind = .OPERATOR ∧ (u.value = "-" ∨ u.value = "+" ∨ u.value = "~")) ∧
       (match st'.nt with
        | some u => ¬(u.kind = .OPERATOR ∧ (u.value = "-" ∨ u.value = "+" ∨ u.value = "~"))
        | none => True)) ∧
    (runVal quietCfg (parse_expression 20) (stateOf c2Toks) =
      some (.binary_op 2 (tok .OPERATOR "^" 4)
        (.binary_op 2 (tok .OPERATOR "^" 1) (.number (tok .NUMBER "2" 0))
          (.unary_op 3 (tok .OPERATOR "-" 2) (.number (tok .NUMBER "3" 3))))
        (.number (tok .NUMBER "2" 5)))) := by
  refine ⟨?_, parse_punary_chain_spec, rfl⟩
  intro cfg j st st1 st2 st3 e1 e2 t us hp1 hnt1 hk hv hchain hp2 hstop
  have hop : (match st1.nt with
      | some u => u.kind == TKind.OPERATOR && List.contains ["^", ".^", squote, dotquote] u.value
      | none => false) = true := by
    rw [hnt1]
    dsimp only
    rw [hk]
    rcases hv with h1 | h1 <;> rw [h1] <;> decide
  have hpow : (t.value == "^" || t.value == ".^") = true := by
    rcases hv with h1 | h1 <;> rw [h1] <;> decide
  unfold parse_precedence_2
  simp only [bind_is_bind, interp_bind]
  rw [hp1]
  dsimp only
  unfold parse_precedence_2_loop
  simp only [bind_is_bind, interp_bind, interp_peekOpIn, hop, if_true]
  rw [interp_matchT_ok cfg .OPERATOR st1 t hnt1 hk]
  dsimp only
  rw [interp_curTok cfg (nextState st1) t (by simpa using hnt1)]
  dsimp only
  rw [hpow]
  simp only [if_true, interp_bind]
  rw [hchain]
  dsimp only
  rw [hp2]
  dsimp only
  unfold parse_precedence_2_loop
  simp only [bind_is_bind, interp_bind, interp_peekOpIn, hstop, Bool.false_eq_true,
    if_false, interp_pure]

theorem c2_witness :
    runVal quietCfg (parse_precedence_2 13) (stateOf c2wToks) =
      some (.binary_op 2 (tok .OPERATOR "^" 1) (.number (tok .NUMBER "2" 0))
        (applyUnaryChain [tok .OPERATOR "-" 2] (.number (tok .NUMBER "3" 3)))) := by
  have h := c2_power_unary_chain.1 quietCfg 10 (stateOf c2wToks) _ _ _ _ _
    (tok .OPERATOR "^" 1) [tok .OPERATOR "-" 2] rfl rfl rfl (Or.inl rfl) rfl rfl rfl
  unfold runVal
  rw [h]

/-- C1: the `functions_require_end` flag starts `False` for a fresh parser;
no parser computation ever resets a `True` flag; at the end-decision point
of `parse_function_def`, end-of-input with the flag set is the fatal
"this function must be terminated with end" error, while consuming an
explicit `end` leaves the flag set in the final state; concretely, a
function file whose first function is `end`-terminated and whose second
reaches end of input without `end` fails fatally with that message, while
the file with both functions terminated parses. -/
theorem c1_functions_require_end :
    (∀ (fn : String) (icd : Bool) (toks : List Token),
       (initParser fn icd toks).functions_require_end = false) ∧
    (∀ (α : Type) (cfg : Cfg) (p : Prog α) (st : PState) (a : α) (st' : PState),
       interp cfg p st = .ok (a, st') →
       st.functions_require_end = true → st'.functions_require_end = true) ∧
    (∀ (cfg : Cfg) (n : Nat) (st : PState) (tf : Token) (sig : MSig) (st2 : PState)
       (avs : List MBlock) (st3 : PState) (bn : List MStmt × List MFuncDef) (st4 : PState),
       st.nt = some tf → tf.kind = .KEYWORD → tf.value = "function" →
       interp cfg (parse_function_signature n) (afterFunKw st) = .ok (sig, st2) →
       interp cfg (parse_fdef_argval_loop n []) st2 = .ok (avs, st3) →
       interp cfg (parse_fdef_body_loop n [] []) st3 = .ok (bn, st4) →
       ((peekEofSt st4 = true → st4.functions_require_end = true →
           interp cfg (parse_function_def (n+1)) st =
             .error (.err (some tf.loc) "this function must be terminated with end")) ∧
        (peekEofSt st4 = false →
           ∀ (fd : MFuncDef) (st' : PState),
             interp cfg (parse_function_def (n+1)) st = .ok (fd, st') →
             st'.functions_require_end = true))) ∧
    (runErr quietCfg (parse_file 30) (stateOf c1fatalToks) =
       some (.err (some 7) "this function must be terminated with end")) ∧
    ((runVal quietCfg (parse_file 30) (stateOf c1okToks)).isSome = true) := by
  refine ⟨fun _ _ _ => rfl, fun α => interp_flag_mono, ?_, rfl, rfl⟩
  intro cfg n st tf sig st2 avs st3 bn st4 hnt hk hv hsig hav hbody
  have hsig2 : interp cfg (parse_function_signature n)
      { nextState st with context := Ctx.funC :: (nextState st).context } = .ok (sig, st2) := hsig
  constructor
  · intro heof hflag
    unfold parse_function_def
    simp only [bind_is_bind, interp_bind]
    rw [interp_matchTV_ok cfg .KEYWORD "function" st tf hnt hk hv]
    dsimp only
    simp only [interp_push]
    rw [interp_curTok cfg { nextState st with context := Ctx.funC :: (nextState st).context } tf
      (by simpa using hnt)]
    dsimp only
    rw [hsig2]
    dsimp only
    rw [hav]
    dsimp only
    rw [hbody]
    dsimp only
    simp only [interp_get]
    rw [heof, hflag]
    simp only [Bool.and_self, if_true, interp_throw]
  · intro heof fd st' h
    unfold parse_function_def at h
    simp only [bind_is_bind, interp_bind] at h
    rw [interp_matchTV_ok cfg .KEYWORD "function" st tf hnt hk hv] at h
    dsimp only at h
    simp only [interp_push] at h
    rw [interp_curTok cfg { nextState st with context := Ctx.funC :: (nextState st).context } tf
      (by simpa using hnt)] at h
    dsimp only at h
    rw [hsig2] at h
    dsimp only at h
    rw [hav] at h
    dsimp only at h
    rw [hbody] at h
    dsimp only at h
    simp only [interp_get] at h
    rw [heof] at h
    simp only [Bool.false_and, Bool.false_eq_true, if_false] at h
    obtain ⟨u1, stA, hset, h⟩ := interp_bind_ok_inv cfg _ _ _ _ _ h
    have hA : stA.functions_require_end = true := by
      have := (interp_setRE cfg st4).symm.trans hset
      cases this
      rfl
    obtain ⟨u2, stB, hmend, h⟩ := interp_bind_ok_inv cfg _ _ _ _ _ h
    have hB := interp_flag_mono cfg _ _ _ _ hmend hA
    obtain ⟨u3, stC, hme, h⟩ := interp_bind_ok_inv cfg _ _ _ _ _ h
    have hC := interp_flag_mono cfg _ _ _ _ hme hB
    obtain ⟨u4, stD, hpop, h⟩ := interp_bind_ok_inv cfg _ _ _ _ _ h
    have hD := interp_flag_mono cfg _ _ _ _ hpop hC
    simp only [interp_pure] at h
    cases h
    exact hD

theorem c1_witness :
    ∃ s st', interp quietCfg (parse_statement 20)
        { stateOf c8Toks with functions_require_end := true } = .ok (s, st') ∧
      st'.functions_require_end = true := by
  refine ⟨_, _, rfl, ?_⟩
  exact c1_functions_require_end.2.1 MStmt quietCfg (parse_statement 20)
    { stateOf c8Toks with functions_require_end := true } _ _ rfl rfl
